import Mathlib

/-!  Shallow embedding of `src/charter/axis.py` from the `charter` repository:
tick generation (`_get_tick_values`), label formatting
(`_find_closest_prefix_power`, `_get_min_step_size`,
`_get_axis_label_adjustors`, `_get_metric_prefix`, `_make_tick_labels`),
the `Ticks` dataclass constructor, and the `XAxis` / `YAxis` layout
constructors and the `YAxis.yline` renderer.

Modelling conventions:
* Python floats are modelled as exact rationals (`ℚ`), Python ints as `ℤ`.
* `math.floor` / `math.ceil` are `Int.floor` / `Int.ceil`;
  Python's floor division `//` on ints is `Int.fdiv`.
* `math.floor(math.log10 x)` is `floorLog10` below (digit counting);
  calls of `math.log10` on a non-positive argument surface as the Python
  `ValueError: math domain error`.
* functions that can raise return `Except String`, carrying the message of
  the `ValueError` / `IndexError` raised by the Python code.
* the debug `print(...)` statements present in `YAxis.__init__` and
  `YAxis.yline` are recorded as an ordered effect trace (`PyPrint`).
-/

namespace Charter

/-! Section: `math.floor(math.log10 x)` -/

/-- Fuelled digit-count recursion: `natLog10Aux fuel n` is `0` when
`n < 10` and one more than the value at `n / 10` otherwise.  Fuel `n`
always suffices because `n / 10 < n` once `10 ≤ n`. -/
def natLog10Aux : ℕ → ℕ → ℕ
  | 0, _ => 0
  | fuel + 1, n => if n < 10 then 0 else natLog10Aux fuel (n / 10) + 1

/-- Floor of `log10 n` for a natural number `n ≥ 1` (number of decimal
digits minus one). -/
def natLog10 (n : ℕ) : ℕ := natLog10Aux n n

/-- Fuelled ceiling-log recursion: `0` when `n ≤ 1`, else one more than
the value at `⌈n / 10⌉`. -/
def natClog10Aux : ℕ → ℕ → ℕ
  | 0, _ => 0
  | fuel + 1, n => if n ≤ 1 then 0 else natClog10Aux fuel ((n + 9) / 10) + 1

/-- Ceiling of `log10 n` for a natural number `n ≥ 1`. -/
def natClog10 (n : ℕ) : ℕ := natClog10Aux n n

/-- Model of Python `math.floor(math.log10 q)` for a positive rational
`q`: for `q ≥ 1` count the digits of `⌊q⌋`, otherwise negate the ceiling
log of `⌈q⁻¹⌉`. -/
def floorLog10 (q : ℚ) : ℤ :=
  if 1 ≤ q then (natLog10 ⌊q⌋.toNat : ℤ) else -(natClog10 ⌈q⁻¹⌉.toNat : ℤ)

/-! Section: `bisect.bisect_left` / `bisect.bisect_right`

The module only calls these on sorted 3-element tuples of limits, where
the insertion point equals the number of entries `< x` (respectively
`≤ x`). -/

/-- Number of entries of the (sorted) list that are `< x`. -/
def bisect_left : List ℚ → ℚ → ℕ
  | [], _ => 0
  | limit :: rest, x => (if limit < x then 1 else 0) + bisect_left rest x

/-- Number of entries of the (sorted) list that are `≤ x`. -/
def bisect_right : List ℚ → ℚ → ℕ
  | [], _ => 0
  | limit :: rest, x => (if limit ≤ x then 1 else 0) + bisect_right rest x

/-! Section: `_round_number` (axis.py lines 236-270) -/

/-- Model of `_round_number`: express `number` as `lead * 10 ^ power`
with `1 ≤ lead < 10`, pick the slot of `lead` among the `limits` with
`bisect_left` (`allow_equal`) or `bisect_right`, and return the matching
rounding term (or `10`) times `10 ^ power`.  `math.log10` of a
non-positive number raises. -/
def roundNumber (number : ℚ) (limits roundingTerms : List ℚ)
    (allowEqual : Bool) : Except String ℚ :=
  if number ≤ 0 then .error "math domain error"
  else
    let power := floorLog10 number
    let leadingTerm := number / (10 : ℚ) ^ power
    let limitIndex :=
      if allowEqual then bisect_left limits leadingTerm
      else bisect_right limits leadingTerm
    let roundedLead :=
      if (limits.length : ℤ) - 1 < (limitIndex : ℤ) then (10 : ℚ)
      else roundingTerms.getD limitIndex 0
    .ok (roundedLead * (10 : ℚ) ^ power)

/-! Section: `_find_closest_prefix_power` (axis.py lines 91-104) -/

/-- Closest SI prefix power: `clamp(floor(log10 |x|) // 3 * 3, -24, 24)`,
and `0` for `x = 0`. -/
def findClosestPrefixPower (number : ℚ) : ℤ :=
  if number ≠ 0 then max (min ((floorLog10 |number|).fdiv 3 * 3) 24) (-24)
  else 0

/-! Section: `_get_metric_prefix` (axis.py lines 180-209) -/

/-- The SI metric prefix lookup table. -/
def metricPrefixTable : List (ℤ × String) :=
  [(24, "Y"), (21, "Z"), (18, "E"), (15, "P"), (12, "T"), (9, "G"),
   (6, "M"), (3, "k"), (-3, "m"), (-6, "μ"), (-9, "n"), (-12, "p"),
   (-15, "f"), (-18, "a"), (-21, "z"), (-24, "y")]

/-- Model of `_get_metric_prefix` (always called with the default
`default=""` in this module). -/
def getMetricPrefix (power : ℤ) : String :=
  match metricPrefixTable.find? (fun entry => decide (entry.1 = power)) with
  | some entry => entry.2
  | none => ""

/-! Section: Python `f"{x:0.2f}"` formatting -/

/-- Round to the nearest integer, ties to even (the rounding used by
Python float formatting). -/
def roundHalfEven (q : ℚ) : ℤ :=
  let lower := ⌊q⌋
  if q - lower < 1 / 2 then lower
  else if (1 : ℚ) / 2 < q - lower then lower + 1
  else if lower % 2 = 0 then lower else lower + 1

/-- Model of Python `f"{q:0.2f}"`: two fractional digits, half-even
rounding, a leading `-` exactly when `q < 0`. -/
def formatTwoDecimals (q : ℚ) : String :=
  let scaled := roundHalfEven (q * 100)
  let sign := if q < 0 then "-" else ""
  let magnitude := scaled.natAbs
  let fractionalPart := magnitude % 100
  let fractionalDigits :=
    if fractionalPart < 10 then "0" ++ toString fractionalPart
    else toString fractionalPart
  sign ++ toString (magnitude / 100) ++ "." ++ fractionalDigits

/-! Section: `_make_tick_labels` (axis.py lines 212-233) -/

/-- Model of `_make_tick_labels`: format
`(tick - axis_subtractor) / 10 ** tick_divisor_power` with two decimals
and append the metric prefix of the divisor power. -/
def makeTickLabels (tickValues : List ℚ) (axisSubtractor : ℚ)
    (tickDivisorPower : ℤ) : List String :=
  let tickDivisorSymbol := getMetricPrefix tickDivisorPower
  tickValues.map fun tick =>
    formatTwoDecimals ((tick - axisSubtractor) / (10 : ℚ) ^ tickDivisorPower)
      ++ tickDivisorSymbol

/-! Section: `_get_min_step_size` (axis.py lines 107-138) -/

/-- Python's `min(pairs, key=...)`: the first pair attaining the minimal
key, or `none` for an empty sequence (Python raises `ValueError`). -/
def pyMinBy (key : ℚ × ℚ → ℚ) : List (ℚ × ℚ) → Option (ℚ × ℚ)
  | [] => none
  | tickPair :: rest =>
    some (rest.foldl (fun acc p => if key p < key acc then p else acc) tickPair)

/-- Model of `_get_min_step_size`: minimum gap of adjacent ticks, raising
when some adjacent pair is descending, and snapping up to the next power
of ten when within 0.1% of it. -/
def getMinStepSize (tickValues : List ℚ) : Except String ℚ :=
  match pyMinBy (fun tickPair => tickPair.2 - tickPair.1)
      (tickValues.zip tickValues.tail) with
  | none => .error "min() arg is an empty sequence"
  | some (leftTick, rightTick) =>
    let minTickStep := rightTick - leftTick
    if minTickStep < 0 then .error "Ticks must be in ascending order."
    else if minTickStep ≠ 0 then
      let minTickStepPlace := floorLog10 minTickStep
      let nextPlaceUp := (10 : ℚ) ^ (minTickStepPlace + 1)
      if (nextPlaceUp - minTickStep) / minTickStep < 1 / 1000 then
        .ok nextPlaceUp
      else .ok minTickStep
    else .ok minTickStep

/-! Section: `_get_axis_label_adjustors` (axis.py lines 141-177) -/

/-- Model of `_get_axis_label_adjustors`.  Note that the Python code
computes `step_place = math.floor(math.log10(min_step_size))`
unconditionally once there is more than one tick, so a zero minimum step
(duplicate adjacent ticks) raises `ValueError: math domain error`. -/
def getAxisLabelAdjustors (tickValues : List ℚ) : Except String (ℚ × ℤ) :=
  let numberOfTicks := tickValues.length
  match tickValues.getLast? with
  | none => .error "list index out of range"
  | some lastTick =>
    let axisDivisorPower := findClosestPrefixPower lastTick
    if numberOfTicks ≤ 1 then .ok (0, axisDivisorPower)
    else
      match getMinStepSize tickValues with
      | .error e => .error e
      | .ok minStepSize =>
        if minStepSize ≤ 0 then .error "math domain error"
        else
          let stepPlace := floorLog10 minStepSize
          if 2 < axisDivisorPower - stepPlace then
            let firstTick := tickValues.headD 0
            if lastTick - firstTick ≤ 0 then .error "math domain error"
            else
              let axisRangePlace := floorLog10 (lastTick - firstTick)
              let tickPlace :=
                if 2 < axisRangePlace - stepPlace then stepPlace
                else axisRangePlace
              let axisSubtractor :=
                ((⌊lastTick / (10 : ℚ) ^ (tickPlace + 1)⌋ : ℤ) : ℚ) *
                  (10 : ℚ) ^ (tickPlace + 1)
              .ok (axisSubtractor,
                findClosestPrefixPower ((10 : ℚ) ^ tickPlace))
          else .ok (0, axisDivisorPower)

/-! Section: `_get_tick_values` (axis.py lines 273-313) -/

/-- The final list comprehension of `_get_tick_values`:
`[first_tick + factor * tick_spacing for factor in range(0, number_of_ticks)]`. -/
def tickList (firstTick tickSpacing : ℚ) (numberOfTicks : ℤ) : List ℚ :=
  (List.range numberOfTicks.toNat).map
    fun factor : ℕ => firstTick + (factor : ℚ) * tickSpacing

/-- Model of `_get_tick_values`. -/
def genTicks (minData maxData : ℚ) (maxTicks : ℤ) : Except String (List ℚ) :=
  if maxData = minData then .ok [minData]
  else if maxTicks = 1 then .ok [(minData + maxData) / 2]
  else if maxTicks ≤ 0 then .error "max_ticks must be greater than 0"
  else
    let dataRange := maxData - minData
    match roundNumber dataRange [3 / 2, 3, 7] [1, 2, 5] false with
    | .error e => .error e
    | .ok roundedRange =>
      let spacing := roundedRange / ((maxTicks : ℚ) - 1)
      match roundNumber spacing [1, 2, 5] [1, 2, 5] true with
      | .error e => .error e
      | .ok tickSpacing =>
        let firstTick := ((⌊minData / tickSpacing⌋ : ℤ) : ℚ) * tickSpacing
        let lastTick := ((⌈maxData / tickSpacing⌉ : ℤ) : ℚ) * tickSpacing
        let numberOfTicks : ℤ := ⌈(lastTick - firstTick) / tickSpacing⌉ + 1
        if maxTicks < numberOfTicks then
          .ok (tickList minData (dataRange / ((maxTicks : ℚ) - 1)) maxTicks)
        else .ok (tickList firstTick tickSpacing numberOfTicks)

/-- Whether `_get_tick_values` takes its fallback branch
(`max_ticks < number_of_ticks` after the nice rounding), mirroring the
intermediate computations of `genTicks`. -/
def genTicksFallback (minData maxData : ℚ) (maxTicks : ℤ) : Bool :=
  if maxData = minData then false
  else if maxTicks = 1 then false
  else if maxTicks ≤ 0 then false
  else
    match roundNumber (maxData - minData) [3 / 2, 3, 7] [1, 2, 5] false with
    | .error _ => false
    | .ok roundedRange =>
      match roundNumber (roundedRange / ((maxTicks : ℚ) - 1)) [1, 2, 5]
          [1, 2, 5] true with
      | .error _ => false
      | .ok tickSpacing =>
        let firstTick := ((⌊minData / tickSpacing⌋ : ℤ) : ℚ) * tickSpacing
        let lastTick := ((⌈maxData / tickSpacing⌉ : ℤ) : ℚ) * tickSpacing
        decide (maxTicks < ⌈(lastTick - firstTick) / tickSpacing⌉ + 1)

/-! Section: The `Ticks` dataclass (axis.py lines 24-88) -/

/-- The attributes of a constructed `Ticks` object. -/
structure TicksData where
  min_data : ℚ
  max_data : ℚ
  max_ticks : ℤ
  tick_values : List ℚ
  axis_power : ℤ
  axis_subtractor : ℚ
  tick_divisor_power : ℤ
  tick_labels : List String
  axis_subtractor_label : Option String
deriving DecidableEq, Repr

/-- Model of `Ticks.__post_init__`: validation, auto-computation of tick
values and labels (a supplied `None` or empty list is falsy, hence
replaced — Python's `self.tick_values or _get_tick_values(...)`), scale
computation, and the length check. -/
def mkTicks (minData maxData : ℚ) (maxTicks : ℤ)
    (tickValues : Option (List ℚ)) (tickLabels : Option (List String)) :
    Except String TicksData :=
  if maxData < minData then
    .error "min_data must be less than or equal to max_data"
  else if maxTicks < 1 then .error "max_ticks must be 1 or greater"
  else
    match (if (tickValues.getD []).isEmpty then genTicks minData maxData maxTicks
      else .ok (tickValues.getD [])) with
    | .error e => .error e
    | .ok values =>
      match values.getLast? with
      | none => .error "list index out of range"
      | some lastValue =>
        let axisPower := findClosestPrefixPower lastValue
        match getAxisLabelAdjustors values with
        | .error e => .error e
        | .ok (axisSubtractor, tickDivisorPower) =>
          let labels :=
            if (tickLabels.getD []).isEmpty then
              makeTickLabels values axisSubtractor tickDivisorPower
            else tickLabels.getD []
          if values.length ≠ labels.length then
            .error "ticks and tick labels should be equal"
          else
            .ok ⟨minData, maxData, maxTicks, values, axisPower,
              axisSubtractor, tickDivisorPower, labels,
              if axisSubtractor = 0 then none
              else some (formatTwoDecimals
                  (axisSubtractor / (10 : ℚ) ^ axisPower)
                ++ getMetricPrefix axisPower)⟩

/-! Section: Python `range(start, stop, step)` over ints (positive step) -/

/-- Python `range(start, stop, step)` for a positive `step` (the only
form this module uses). -/
def pyRange (start stop step : ℤ) : List ℤ :=
  if 0 < step then
    (List.range ((stop - start + step - 1).fdiv step).toNat).map
      fun i : ℕ => start + (i : ℤ) * step
  else []

/-! Section: `XAxis` (axis.py lines 316-505) -/

/-- The intermediate layout quantities of `XAxis.__init__`
(axis.py lines 404-417), as functions of `tick_padding`, `width` and the
number of ticks. -/
def xTotalTickSpace (tickPadding : ℤ) (n : ℕ) : ℤ :=
  (n : ℤ) * (tickPadding * 2 + 1)

/-- The local `tick_margin` before clamping (axis.py lines 406-410). -/
def xTickMarginRaw (tickPadding width : ℤ) (n : ℕ) : ℤ :=
  if 1 < n then (width - xTotalTickSpace tickPadding n).fdiv ((n : ℤ) - 1)
  else 0

/-- The clamped `self.tick_margin` (axis.py line 411). -/
def xTickMargin (tickPadding width : ℤ) (n : ℕ) : ℤ :=
  max (xTickMarginRaw tickPadding width n) 0

/-- The local `total_taken_space` (axis.py lines 412-414). -/
def xTotalTakenSpace (tickPadding width : ℤ) (n : ℕ) : ℤ :=
  xTotalTickSpace tickPadding n +
    xTickMargin tickPadding width n * ((n : ℤ) - 1)

/-- The local `extra_space` (axis.py line 415). -/
def xExtraSpace (tickPadding width : ℤ) (n : ℕ) : ℤ :=
  max (width - xTotalTakenSpace tickPadding width n) 0

/-- The attribute `self.left_padding` (axis.py line 416). -/
def xLeftPadding (tickPadding width : ℤ) (n : ℕ) : ℤ :=
  (xExtraSpace tickPadding width n).fdiv 2

/-- The attribute `self.right_padding` (axis.py line 417). -/
def xRightPadding (tickPadding width : ℤ) (n : ℕ) : ℤ :=
  max (xExtraSpace tickPadding width n - xLeftPadding tickPadding width n) 0

/-- The attribute `self.tick_positions` (axis.py lines 418-424). -/
def xTickPositions (tickPadding width : ℤ) (n : ℕ) : List ℤ :=
  pyRange (tickPadding + xLeftPadding tickPadding width n) (width + 1)
    (xTickMargin tickPadding width n + 2 * tickPadding + 1)

/-- Model of `XAxis._make_xaxis_columns`: header and width of each
emitted column. -/
def makeXAxisColumns (numberOfTicks : ℕ)
    (tickPadding leftPadding rightPadding tickMargin : ℤ) :
    List (String × ℤ) :=
  let xaxisColumns := (List.range (2 * numberOfTicks - 1)).map
    fun columnNumber =>
      if columnNumber % 2 = 0 then ("xtick", 2 * tickPadding + 1)
      else ("xtick_margin", tickMargin)
  [("left_padding", leftPadding)] ++ xaxisColumns ++
    [("right_padding", rightPadding)]

/-- The attributes of a constructed `XAxis` object. -/
structure XAxisData where
  ticks : TicksData
  width : ℤ
  tick_padding : ℤ
  number_of_xticks : ℕ
  tick_margin : ℤ
  left_padding : ℤ
  right_padding : ℤ
  tick_positions : List ℤ
  table_columns : List (String × ℤ)
deriving DecidableEq, Repr

/-- Model of `XAxis.__init__` (axis.py lines 366-431). -/
def mkXAxis (minData maxData : ℚ) (tickPadding minTickMargin width : ℤ)
    (tickValues : Option (List ℚ)) (tickLabels : Option (List String)) :
    Except String XAxisData :=
  if tickPadding < 0 ∨ minTickMargin < 0 ∨ width < 0 then
    .error "tick_padding, min_tick_margin, and width must be 0 or greater"
  else if width < 2 * tickPadding + 1 then
    .error "tick_padding is too large and will not fit in allocated width."
  else
    let maxTicks := 1 +
      (width - (2 * tickPadding + 1)).fdiv ((2 * tickPadding + 1) + minTickMargin)
    match mkTicks minData maxData maxTicks tickValues tickLabels with
    | .error e => .error e
    | .ok ticks =>
      let numberOfXTicks := ticks.tick_values.length
      .ok ⟨ticks, width, tickPadding, numberOfXTicks,
        xTickMargin tickPadding width numberOfXTicks,
        xLeftPadding tickPadding width numberOfXTicks,
        xRightPadding tickPadding width numberOfXTicks,
        xTickPositions tickPadding width numberOfXTicks,
        makeXAxisColumns numberOfXTicks tickPadding
          (xLeftPadding tickPadding width numberOfXTicks)
          (xRightPadding tickPadding width numberOfXTicks)
          (xTickMargin tickPadding width numberOfXTicks)⟩

/-! Section: `YAxis` (axis.py lines 609-789) -/

/-- A `rich.text.Text` fragment as used by this module: its string and
its style name. -/
structure RText where
  text : String
  style : String
deriving DecidableEq, Repr

/-- One Python `print(...)` call, recording the arguments passed
(the debug prints left in `YAxis.__init__` and `YAxis.yline`). -/
inductive PyPrint where
  | int (n : ℤ)
  | pair (a b : ℤ)
  | texts (ts : List RText)
  | intList (ns : List ℤ)
deriving DecidableEq, Repr

/-- The `position` argument of `YAxis` (other strings raise). -/
inductive YPosition where
  | left
  | right
deriving DecidableEq, Repr

/-- Python `characters.get(key, fallback)` on the character override
mapping. -/
def dictGet (characters : List (String × String)) (key fallback : String) :
    String :=
  match characters.find? (fun entry => decide (entry.1 = key)) with
  | some entry => entry.2
  | none => fallback

/-- The attributes of a constructed `YAxis` object. -/
structure YAxisData where
  ticks : TicksData
  position : YPosition
  width : ℤ
  length : ℤ
  show_ticks : Bool
  characters : List (String × String)
  number_of_yticks : ℕ
  tick_margin : ℤ
  top_padding : ℤ
  bottom_padding : ℤ
  tick_positions : List ℤ
  table_columns : List (String × ℤ)
deriving DecidableEq, Repr

/-- Model of `YAxis.__init__` (axis.py lines 648-699), returning the
constructed object together with the trace of the `print` calls it
executes (axis.py lines 686, 691, 695). -/
def mkYAxis (minData maxData : ℚ) (minTickMargin length0 width : ℤ)
    (position : YPosition) (tickValues : Option (List ℚ))
    (tickLabels : Option (List String))
    (characters : List (String × String)) (showTicks : Bool) :
    Except String (YAxisData × List PyPrint) :=
  if minTickMargin < 0 ∨ width < 0 ∨ length0 < 0 then
    .error "min_tick_margin, width, and length must be 0 or greater"
  else
    let maxTicks := 1 + (length0 - 1).fdiv (1 + minTickMargin)
    match mkTicks minData maxData maxTicks tickValues tickLabels with
    | .error e => .error e
    | .ok ticks =>
      let numberOfYTicks := ticks.tick_values.length
      let tickMarginRaw :=
        if 1 < numberOfYTicks then
          (length0 - (numberOfYTicks : ℤ)).fdiv ((numberOfYTicks : ℤ) - 1)
        else 0
      let tickMargin := max tickMarginRaw 0
      let totalTakenSpace :=
        (numberOfYTicks : ℤ) + tickMargin * ((numberOfYTicks : ℤ) - 1)
      let extraSpace := max (length0 - totalTakenSpace) 0
      let topPadding := extraSpace.fdiv 2
      let bottomPadding := max (extraSpace - topPadding) 0
      let tickPositions := pyRange topPadding (length0 + 1) (tickMargin + 1)
      let tableColumns :=
        if position = .left then [("ytick_label", width - 1), ("ytick", 1)]
        else [("ytick", 1), ("ytick_label", width - 1)]
      .ok (⟨ticks, position, width, length0, showTicks, characters,
          numberOfYTicks, tickMargin, topPadding, bottomPadding,
          tickPositions, tableColumns⟩,
        [.int tickMarginRaw, .int totalTakenSpace,
          .pair topPadding bottomPadding])

/-- Model of `YAxis.yline` (axis.py lines 720-748), returning the
rendered fragments together with the trace of the `print` calls it
executes (axis.py lines 745-747).  Note the left-edge tick glyph is
looked up under the key `"left_tick"` (axis.py line 730). -/
def yline (y : YAxisData) : List RText × List PyPrint :=
  let ylineCharacter := dictGet y.characters "yline" "┃"
  let ytickCharacter :=
    if ¬y.show_ticks then ylineCharacter
    else if y.position = .left then dictGet y.characters "left_tick" "┫"
    else dictGet y.characters "right_ytick" "┣"
  let middle := (pyRange y.top_padding (y.length - y.bottom_padding) 1).map
    fun row =>
      if row ∈ y.tick_positions then (⟨ytickCharacter, "ytick"⟩ : RText)
      else ⟨ylineCharacter, "yaxis"⟩
  let result :=
    List.replicate y.top_padding.toNat (⟨ylineCharacter, "yaxis"⟩ : RText) ++
      middle ++
      List.replicate y.bottom_padding.toNat (⟨ylineCharacter, "yaxis"⟩ : RText)
  (result, [.texts result, .intList y.tick_positions, .int y.top_padding])

/-! Section: Correctness of the digit-count logarithms -/

lemma natLog10Aux_spec :
    ∀ fuel n : ℕ, 1 ≤ n → n ≤ fuel →
      10 ^ natLog10Aux fuel n ≤ n ∧ n < 10 ^ (natLog10Aux fuel n + 1) := by
  intro fuel
  induction fuel with
  | zero => intro n h1 h2; omega
  | succ fuel ih =>
    intro n h1 h2
    rw [natLog10Aux]
    by_cases h : n < 10
    · rw [if_pos h]
      refine ⟨by simpa using h1, by simpa using h⟩
    · rw [if_neg h]
      have h10 : 10 ≤ n := by omega
      have hd1 : 1 ≤ n / 10 := by omega
      have hdf : n / 10 ≤ fuel := by omega
      obtain ⟨hlo, hhi⟩ := ih (n / 10) hd1 hdf
      constructor
      · calc 10 ^ (natLog10Aux fuel (n / 10) + 1)
              = 10 ^ natLog10Aux fuel (n / 10) * 10 := by rw [pow_succ]
          _ ≤ n / 10 * 10 := Nat.mul_le_mul_right 10 hlo
          _ ≤ n := by omega
      · calc n < (n / 10 + 1) * 10 := by omega
          _ ≤ 10 ^ (natLog10Aux fuel (n / 10) + 1) * 10 :=
              Nat.mul_le_mul_right 10 hhi
          _ = 10 ^ (natLog10Aux fuel (n / 10) + 1 + 1) := by
              ring

lemma natLog10_spec (n : ℕ) (h1 : 1 ≤ n) :
    10 ^ natLog10 n ≤ n ∧ n < 10 ^ (natLog10 n + 1) :=
  natLog10Aux_spec n n h1 le_rfl

lemma natClog10Aux_spec :
    ∀ fuel n : ℕ, n ≤ fuel →
      n ≤ 10 ^ natClog10Aux fuel n ∧
        (2 ≤ n → 10 ^ (natClog10Aux fuel n - 1) < n) := by
  intro fuel
  induction fuel with
  | zero =>
    intro n h2
    have hn : n = 0 := by omega
    subst hn
    rw [natClog10Aux]
    exact ⟨by positivity, by omega⟩
  | succ fuel ih =>
    intro n h2
    rw [natClog10Aux]
    by_cases h : n ≤ 1
    · rw [if_pos h]
      exact ⟨by simpa using h, by omega⟩
    · rw [if_neg h]
      have hn2 : 2 ≤ n := by omega
      have hmf : (n + 9) / 10 ≤ fuel := by omega
      obtain ⟨hup, hlowf⟩ := ih ((n + 9) / 10) hmf
      constructor
      · calc n ≤ (n + 9) / 10 * 10 := by omega
          _ ≤ 10 ^ natClog10Aux fuel ((n + 9) / 10) * 10 :=
              Nat.mul_le_mul_right 10 hup
          _ = 10 ^ (natClog10Aux fuel ((n + 9) / 10) + 1) := by rw [pow_succ]
      · intro _
        have hsimp : 10 ^ (natClog10Aux fuel ((n + 9) / 10) + 1 - 1) =
            10 ^ natClog10Aux fuel ((n + 9) / 10) := by
          congr 1
        rw [hsimp]
        rcases Nat.lt_or_ge ((n + 9) / 10) 2 with hm | hm
        · have hm1 : (n + 9) / 10 = 1 := by omega
          have hK : natClog10Aux fuel ((n + 9) / 10) = 0 := by
            obtain ⟨f, rfl⟩ : ∃ f, fuel = f + 1 := by
              rcases fuel with _ | f
              · exact absurd hmf (by omega)
              · exact ⟨f, rfl⟩
            rw [hm1, natClog10Aux, if_pos (by norm_num)]
          rw [hK, pow_zero]
          omega
        · have hstrict := hlowf hm
          have hK1 : 1 ≤ natClog10Aux fuel ((n + 9) / 10) := by
            by_contra hc
            have h0 : natClog10Aux fuel ((n + 9) / 10) = 0 := by omega
            rw [h0, pow_zero] at hup
            omega
          have hkey : 10 ^ natClog10Aux fuel ((n + 9) / 10) ≤
              ((n + 9) / 10 - 1) * 10 := by
            calc 10 ^ natClog10Aux fuel ((n + 9) / 10)
                = 10 ^ (natClog10Aux fuel ((n + 9) / 10) - 1) * 10 := by
                  rw [← pow_succ]
                  congr 1
                  omega
              _ ≤ ((n + 9) / 10 - 1) * 10 :=
                  Nat.mul_le_mul_right 10 (by omega)
          omega

lemma natClog10_spec (n : ℕ) :
    n ≤ 10 ^ natClog10 n ∧ (2 ≤ n → 10 ^ (natClog10 n - 1) < n) :=
  natClog10Aux_spec n n le_rfl

/-- Characterisation of `floorLog10` on positive rationals: it satisfies
`10 ^ p ≤ q < 10 ^ (p + 1)` — i.e. it models `math.floor(math.log10 q)`. -/
lemma floorLog10_spec (q : ℚ) (hq : 0 < q) :
    (10 : ℚ) ^ floorLog10 q ≤ q ∧ q < (10 : ℚ) ^ (floorLog10 q + 1) := by
  rw [floorLog10]
  by_cases h1 : 1 ≤ q
  · rw [if_pos h1]
    have hfl1 : (1 : ℤ) ≤ ⌊q⌋ := by
      rwa [Int.le_floor, Int.cast_one]
    have hcast : ((⌊q⌋.toNat : ℕ) : ℤ) = ⌊q⌋ := Int.toNat_of_nonneg (by omega)
    have h1n : 1 ≤ ⌊q⌋.toNat := by omega
    obtain ⟨hlo, hhi⟩ := natLog10_spec ⌊q⌋.toNat h1n
    have hfloor_le : ((⌊q⌋.toNat : ℕ) : ℚ) ≤ q := by
      have h := Int.floor_le q
      have hc : ((⌊q⌋.toNat : ℕ) : ℚ) = ((⌊q⌋ : ℤ) : ℚ) := by
        exact_mod_cast congrArg (fun z : ℤ => (z : ℚ)) hcast
      rw [hc]
      exact h
    have hlt_floor : q < ((⌊q⌋.toNat : ℕ) : ℚ) + 1 := by
      have h := Int.lt_floor_add_one q
      have hc : ((⌊q⌋.toNat : ℕ) : ℚ) = ((⌊q⌋ : ℤ) : ℚ) := by
        exact_mod_cast congrArg (fun z : ℤ => (z : ℚ)) hcast
      rw [hc]
      exact h
    constructor
    · calc (10 : ℚ) ^ ((natLog10 ⌊q⌋.toNat : ℕ) : ℤ)
            = ((10 ^ natLog10 ⌊q⌋.toNat : ℕ) : ℚ) := by
            rw [zpow_natCast]
            push_cast
            ring
        _ ≤ ((⌊q⌋.toNat : ℕ) : ℚ) := by exact_mod_cast hlo
        _ ≤ q := hfloor_le
    · calc q < ((⌊q⌋.toNat : ℕ) : ℚ) + 1 := hlt_floor
        _ ≤ ((10 ^ (natLog10 ⌊q⌋.toNat + 1) : ℕ) : ℚ) := by
            exact_mod_cast hhi
        _ = (10 : ℚ) ^ (((natLog10 ⌊q⌋.toNat : ℕ) : ℤ) + 1) := by
            rw [show ((natLog10 ⌊q⌋.toNat : ℕ) : ℤ) + 1 =
                ((natLog10 ⌊q⌋.toNat + 1 : ℕ) : ℤ) by omega]
            rw [zpow_natCast]
            push_cast
            ring
  · rw [if_neg h1]
    push_neg at h1
    have hr : 1 < q⁻¹ := one_lt_inv_iff₀.mpr ⟨hq, h1⟩
    have hceil_pos : (0 : ℤ) < ⌈q⁻¹⌉ := Int.ceil_pos.mpr (by linarith)
    have hcast : ((⌈q⁻¹⌉.toNat : ℕ) : ℤ) = ⌈q⁻¹⌉ :=
      Int.toNat_of_nonneg hceil_pos.le
    have hm2 : 2 ≤ ⌈q⁻¹⌉.toNat := by
      have h1c : (1 : ℤ) < ⌈q⁻¹⌉ := by
        have h2 : (1 : ℚ) < ((⌈q⁻¹⌉ : ℤ) : ℚ) :=
          lt_of_lt_of_le hr (Int.le_ceil q⁻¹)
        exact_mod_cast h2
      omega
    obtain ⟨hup, hlowf⟩ := natClog10_spec ⌈q⁻¹⌉.toNat
    have hlow := hlowf hm2
    have hK1 : 1 ≤ natClog10 ⌈q⁻¹⌉.toNat := by
      by_contra hc
      have h0 : natClog10 ⌈q⁻¹⌉.toNat = 0 := by omega
      rw [h0, pow_zero] at hup
      omega
    have hrleQ : q⁻¹ ≤ (10 : ℚ) ^ ((natClog10 ⌈q⁻¹⌉.toNat : ℕ) : ℤ) := by
      calc q⁻¹ ≤ ((⌈q⁻¹⌉ : ℤ) : ℚ) := Int.le_ceil q⁻¹
        _ = ((⌈q⁻¹⌉.toNat : ℕ) : ℚ) := by exact_mod_cast hcast.symm
        _ ≤ ((10 ^ natClog10 ⌈q⁻¹⌉.toNat : ℕ) : ℚ) := by exact_mod_cast hup
        _ = (10 : ℚ) ^ ((natClog10 ⌈q⁻¹⌉.toNat : ℕ) : ℤ) := by
            rw [zpow_natCast]
            push_cast
            ring
    have hrgtQ : (10 : ℚ) ^ (((natClog10 ⌈q⁻¹⌉.toNat : ℕ) : ℤ) - 1) < q⁻¹ := by
      have hmlt : ((⌈q⁻¹⌉.toNat : ℕ) : ℚ) - 1 < q⁻¹ := by
        have h := Int.ceil_lt_add_one q⁻¹
        have hc : ((⌈q⁻¹⌉.toNat : ℕ) : ℚ) = ((⌈q⁻¹⌉ : ℤ) : ℚ) := by
          exact_mod_cast congrArg (fun z : ℤ => (z : ℚ)) hcast
        rw [hc]
        linarith
      have h3 : ((10 ^ (natClog10 ⌈q⁻¹⌉.toNat - 1) : ℕ) : ℚ) + 1 ≤
          ((⌈q⁻¹⌉.toNat : ℕ) : ℚ) := by exact_mod_cast hlow
      have hzp : ((10 ^ (natClog10 ⌈q⁻¹⌉.toNat - 1) : ℕ) : ℚ) =
          (10 : ℚ) ^ (((natClog10 ⌈q⁻¹⌉.toNat : ℕ) : ℤ) - 1) := by
        rw [show ((natClog10 ⌈q⁻¹⌉.toNat : ℕ) : ℤ) - 1 =
            ((natClog10 ⌈q⁻¹⌉.toNat - 1 : ℕ) : ℤ) by omega]
        rw [zpow_natCast]
        push_cast
        ring
      rw [hzp] at h3
      linarith
    constructor
    · have hgoal : (10 : ℚ) ^ (-((natClog10 ⌈q⁻¹⌉.toNat : ℕ) : ℤ)) =
          ((10 : ℚ) ^ ((natClog10 ⌈q⁻¹⌉.toNat : ℕ) : ℤ))⁻¹ := zpow_neg 10 _
      rw [hgoal]
      have h := inv_anti₀ (inv_pos.mpr hq) hrleQ
      rwa [inv_inv] at h
    · have hexp : -((natClog10 ⌈q⁻¹⌉.toNat : ℕ) : ℤ) + 1 =
          -((((natClog10 ⌈q⁻¹⌉.toNat : ℕ) : ℤ)) - 1) := by ring
      rw [hexp, zpow_neg]
      have hpow_pos : (0 : ℚ) <
          (10 : ℚ) ^ (((natClog10 ⌈q⁻¹⌉.toNat : ℕ) : ℤ) - 1) := by
        positivity
      have h := inv_strictAnti₀ hpow_pos hrgtQ
      rwa [inv_inv] at h

/-- Uniqueness: `floorLog10 q` is the only `p` with
`10 ^ p ≤ q < 10 ^ (p + 1)`.  This is the work-horse for evaluating
`floorLog10` on concrete inputs. -/
lemma floorLog10_eq_of (q : ℚ) (p : ℤ) (hq : 0 < q)
    (h1 : (10 : ℚ) ^ p ≤ q) (h2 : q < (10 : ℚ) ^ (p + 1)) :
    floorLog10 q = p := by
  obtain ⟨l1, l2⟩ := floorLog10_spec q hq
  by_contra hne
  rcases lt_or_gt_of_ne hne with h | h
  · have hmono : (10 : ℚ) ^ (floorLog10 q + 1) ≤ (10 : ℚ) ^ p :=
      zpow_le_zpow_right₀ (by norm_num) (by omega)
    linarith
  · have hmono : (10 : ℚ) ^ (p + 1) ≤ (10 : ℚ) ^ floorLog10 q :=
      zpow_le_zpow_right₀ (by norm_num) (by omega)
    linarith

/-! Section: Evaluation helpers for concrete inputs -/

lemma roundHalfEven_intCast (m : ℤ) : roundHalfEven (m : ℚ) = m := by
  simp only [roundHalfEven, Int.floor_intCast, sub_self]
  norm_num

/-- Evaluate `formatTwoDecimals` when `q * 100` is the non-negative
integer `m`. -/
lemma formatTwoDecimals_of (q : ℚ) (m : ℤ) (hq : q * 100 = (m : ℚ))
    (h0 : ¬q < 0) :
    formatTwoDecimals q =
      "" ++ toString (m.natAbs / 100) ++ "." ++
        (if m.natAbs % 100 < 10 then "0" ++ toString (m.natAbs % 100)
         else toString (m.natAbs % 100)) := by
  simp only [formatTwoDecimals]
  rw [hq, roundHalfEven_intCast, if_neg h0]

lemma formatTwoDecimals_3 : formatTwoDecimals 3 = "3.00" := by
  rw [formatTwoDecimals_of 3 300 (by norm_num) (by norm_num)]
  decide

lemma formatTwoDecimals_4 : formatTwoDecimals 4 = "4.00" := by
  rw [formatTwoDecimals_of 4 400 (by norm_num) (by norm_num)]
  decide

lemma formatTwoDecimals_5 : formatTwoDecimals 5 = "5.00" := by
  rw [formatTwoDecimals_of 5 500 (by norm_num) (by norm_num)]
  decide

lemma getMetricPrefix_zero : getMetricPrefix 0 = "" := by decide

lemma floorLog10_one : floorLog10 1 = 0 :=
  floorLog10_eq_of 1 0 (by norm_num) (by norm_num) (by norm_num)

lemma floorLog10_two : floorLog10 2 = 0 :=
  floorLog10_eq_of 2 0 (by norm_num) (by norm_num) (by norm_num)

lemma floorLog10_million5 : floorLog10 1000005 = 6 :=
  floorLog10_eq_of 1000005 6 (by norm_num) (by norm_num) (by norm_num)

lemma findClosestPrefixPower_million5 :
    findClosestPrefixPower 1000005 = 6 := by
  rw [findClosestPrefixPower, if_pos (by norm_num : (1000005 : ℚ) ≠ 0)]
  rw [show |(1000005 : ℚ)| = 1000005 from abs_of_pos (by norm_num)]
  rw [floorLog10_million5]
  decide

lemma findClosestPrefixPower_one : findClosestPrefixPower 1 = 0 := by
  rw [findClosestPrefixPower, if_pos (by norm_num : (1 : ℚ) ≠ 0)]
  rw [show |(1 : ℚ)| = 1 from abs_of_pos (by norm_num)]
  rw [floorLog10_one]
  decide

lemma getMinStepSize_million :
    getMinStepSize [1000003, 1000004, 1000005] = .ok 1 := by
  have hz : ([1000003, 1000004, 1000005] : List ℚ).zip
      ([1000003, 1000004, 1000005] : List ℚ).tail =
      [(1000003, 1000004), (1000004, 1000005)] := rfl
  simp only [getMinStepSize, hz, pyMinBy, List.foldl]
  norm_num [floorLog10_one]

lemma adjustors_million_eval :
    getAxisLabelAdjustors [1000003, 1000004, 1000005] = .ok (1000000, 0) := by
  have hlast : ([1000003, 1000004, 1000005] : List ℚ).getLast? =
      some (1000005 : ℚ) := rfl
  have hhead : ([1000003, 1000004, 1000005] : List ℚ).headD 0 =
      (1000003 : ℚ) := rfl
  have hlen : ([1000003, 1000004, 1000005] : List ℚ).length = 3 := rfl
  have hrange : (1000005 : ℚ) - 1000003 = 2 := by norm_num
  have hsub : ((⌊(1000005 : ℚ) / (10 : ℚ) ^ ((0 : ℤ) + 1)⌋ : ℤ) : ℚ) *
      (10 : ℚ) ^ ((0 : ℤ) + 1) = 1000000 := by
    rw [show ((0 : ℤ) + 1) = 1 by ring,
      show ((10 : ℚ) ^ (1 : ℤ)) = 10 by norm_num]
    rw [show (⌊(1000005 : ℚ) / 10⌋ : ℤ) = 100000 by
      rw [Int.floor_eq_iff] <;> norm_num]
    norm_num
  have hfc : findClosestPrefixPower ((10 : ℚ) ^ (0 : ℤ)) = 0 := by
    rw [show ((10 : ℚ) ^ (0 : ℤ)) = 1 by norm_num]
    exact findClosestPrefixPower_one
  simp only [getAxisLabelAdjustors, hlast, hlen, hhead,
    getMinStepSize_million, findClosestPrefixPower_million5, hrange,
    floorLog10_one, floorLog10_two]
  norm_num [hsub, hfc, findClosestPrefixPower_one]

lemma makeTickLabels_million :
    makeTickLabels [1000003, 1000004, 1000005] 1000000 0 =
      ["3.00", "4.00", "5.00"] := by
  have h3 : ((1000003 : ℚ) - 1000000) / (10 : ℚ) ^ (0 : ℤ) = 3 := by norm_num
  have h4 : ((1000004 : ℚ) - 1000000) / (10 : ℚ) ^ (0 : ℤ) = 4 := by norm_num
  have h5 : ((1000005 : ℚ) - 1000000) / (10 : ℚ) ^ (0 : ℤ) = 5 := by norm_num
  simp only [makeTickLabels, List.map, getMetricPrefix_zero, h3, h4, h5,
    formatTwoDecimals_3, formatTwoDecimals_4, formatTwoDecimals_5]
  decide

/-- Claim C3: for the supplied tick values `[1000003, 1000004, 1000005]`,
scale computation returns `axis_subtractor = 1000000` and
`tick_divisor_power = 0`, and label formatting returns exactly
`["3.00", "4.00", "5.00"]`. -/
theorem scale_and_labels_million_example :
    getAxisLabelAdjustors [1000003, 1000004, 1000005] = .ok (1000000, 0) ∧
      makeTickLabels [1000003, 1000004, 1000005] 1000000 0 =
        ["3.00", "4.00", "5.00"] :=
  ⟨adjustors_million_eval, makeTickLabels_million⟩

lemma getMinStepSize_ones : getMinStepSize [1, 1] = .ok 0 := by
  have hz : ([1, 1] : List ℚ).zip ([1, 1] : List ℚ).tail = [(1, 1)] := rfl
  simp only [getMinStepSize, hz, pyMinBy, List.foldl]
  norm_num

/-- Claim C4: the code crashes on duplicate adjacent ticks.  The minimum
step size of `[1, 1]` is legally computed as `0`, but the scale
computation then evaluates `math.floor(math.log10(0))`, which raises
`ValueError: math domain error` instead of succeeding. -/
theorem adjustors_zero_step_domain_error :
    getMinStepSize [1, 1] = .ok 0 ∧
      getAxisLabelAdjustors [1, 1] = .error "math domain error" := by
  refine ⟨getMinStepSize_ones, ?_⟩
  have hlast : ([1, 1] : List ℚ).getLast? = some (1 : ℚ) := rfl
  have hlen : ([1, 1] : List ℚ).length = 2 := rfl
  simp only [getAxisLabelAdjustors, hlast, hlen, getMinStepSize_ones]
  norm_num

lemma floorLog10_ten : floorLog10 10 = 1 :=
  floorLog10_eq_of 10 1 (by norm_num) (by norm_num) (by norm_num)

lemma floorLog10_ten_ninths : floorLog10 (10 / 9) = 0 :=
  floorLog10_eq_of (10 / 9) 0 (by norm_num) (by norm_num) (by norm_num)

lemma roundNumber_ten :
    roundNumber 10 [3 / 2, 3, 7] [1, 2, 5] false = .ok 10 := by
  simp only [roundNumber, floorLog10_ten]
  norm_num [bisect_right, List.getD]

lemma roundNumber_ten_ninths :
    roundNumber (10 / 9) [1, 2, 5] [1, 2, 5] true = .ok 2 := by
  simp only [roundNumber, floorLog10_ten_ninths]
  norm_num [bisect_left, List.getD]

lemma tickList_0_2_6 : tickList 0 2 6 = [0, 2, 4, 6, 8, 10] := by
  rw [tickList, show ((6 : ℤ).toNat) = 6 from rfl,
    show List.range 6 = [0, 1, 2, 3, 4, 5] from rfl]
  simp only [List.map]
  norm_num

lemma genTicks_0_10_10 : genTicks 0 10 10 = .ok [0, 2, 4, 6, 8, 10] := by
  have hspacing : (10 : ℚ) / (((10 : ℤ) : ℚ) - 1) = 10 / 9 := by norm_num
  have hfl : (⌊(0 : ℚ) / 2⌋ : ℤ) = 0 := by norm_num
  have hce : (⌈(10 : ℚ) / 2⌉ : ℤ) = 5 := by
    rw [Int.ceil_eq_iff] <;> norm_num
  simp only [genTicks]
  rw [if_neg (by norm_num : ¬(10 : ℚ) = 0),
    if_neg (by norm_num : ¬(10 : ℤ) = 1),
    if_neg (by norm_num : ¬(10 : ℤ) ≤ 0)]
  rw [show (10 : ℚ) - 0 = 10 by norm_num]
  rw [roundNumber_ten]
  simp only [hspacing]
  rw [roundNumber_ten_ninths]
  simp only [hfl, hce]
  rw [show ((0 : ℤ) : ℚ) * 2 = 0 by norm_num,
    show ((5 : ℤ) : ℚ) * 2 = 10 by norm_num]
  rw [show (⌈((10 : ℚ) - 0) / 2⌉ : ℤ) = 5 by
    rw [Int.ceil_eq_iff] <;> norm_num]
  rw [if_neg (by norm_num : ¬(10 : ℤ) < 5 + 1),
    show (5 : ℤ) + 1 = 6 from rfl, tickList_0_2_6]

lemma formatTwoDecimals_0 : formatTwoDecimals 0 = "0.00" := by
  rw [formatTwoDecimals_of 0 0 (by norm_num) (by norm_num)]
  decide

lemma formatTwoDecimals_2 : formatTwoDecimals 2 = "2.00" := by
  rw [formatTwoDecimals_of 2 200 (by norm_num) (by norm_num)]
  decide

lemma formatTwoDecimals_6 : formatTwoDecimals 6 = "6.00" := by
  rw [formatTwoDecimals_of 6 600 (by norm_num) (by norm_num)]
  decide

lemma formatTwoDecimals_8 : formatTwoDecimals 8 = "8.00" := by
  rw [formatTwoDecimals_of 8 800 (by norm_num) (by norm_num)]
  decide

lemma formatTwoDecimals_ten : formatTwoDecimals 10 = "10.00" := by
  rw [formatTwoDecimals_of 10 1000 (by norm_num) (by norm_num)]
  decide

lemma findClosestPrefixPower_ten : findClosestPrefixPower 10 = 0 := by
  rw [findClosestPrefixPower, if_pos (by norm_num : (10 : ℚ) ≠ 0)]
  rw [show |(10 : ℚ)| = 10 from abs_of_pos (by norm_num)]
  rw [floorLog10_ten]
  decide

lemma getMinStepSize_evens :
    getMinStepSize [0, 2, 4, 6, 8, 10] = .ok 2 := by
  have hz : ([0, 2, 4, 6, 8, 10] : List ℚ).zip
      ([0, 2, 4, 6, 8, 10] : List ℚ).tail =
      [(0, 2), (2, 4), (4, 6), (6, 8), (8, 10)] := rfl
  simp only [getMinStepSize, hz, pyMinBy, List.foldl]
  norm_num [floorLog10_two]

lemma adjustors_evens :
    getAxisLabelAdjustors [0, 2, 4, 6, 8, 10] = .ok (0, 0) := by
  have hlast : ([0, 2, 4, 6, 8, 10] : List ℚ).getLast? = some (10 : ℚ) := rfl
  have hlen : ([0, 2, 4, 6, 8, 10] : List ℚ).length = 6 := rfl
  simp only [getAxisLabelAdjustors, hlast, hlen, getMinStepSize_evens,
    findClosestPrefixPower_ten, floorLog10_two]
  norm_num

lemma makeTickLabels_evens :
    makeTickLabels [0, 2, 4, 6, 8, 10] 0 0 =
      ["0.00", "2.00", "4.00", "6.00", "8.00", "10.00"] := by
  have e0 : ((0 : ℚ) - 0) / (10 : ℚ) ^ (0 : ℤ) = 0 := by norm_num
  have e2 : ((2 : ℚ) - 0) / (10 : ℚ) ^ (0 : ℤ) = 2 := by norm_num
  have e4 : ((4 : ℚ) - 0) / (10 : ℚ) ^ (0 : ℤ) = 4 := by norm_num
  have e6 : ((6 : ℚ) - 0) / (10 : ℚ) ^ (0 : ℤ) = 6 := by norm_num
  have e8 : ((8 : ℚ) - 0) / (10 : ℚ) ^ (0 : ℤ) = 8 := by norm_num
  have e10 : ((10 : ℚ) - 0) / (10 : ℚ) ^ (0 : ℤ) = 10 := by norm_num
  simp only [makeTickLabels, List.map, getMetricPrefix_zero, e0, e2, e4, e6,
    e8, e10, formatTwoDecimals_0, formatTwoDecimals_2, formatTwoDecimals_4,
    formatTwoDecimals_6, formatTwoDecimals_8, formatTwoDecimals_ten]
  decide

lemma mkTicks_0_10_10 :
    mkTicks 0 10 10 none none =
      .ok ⟨0, 10, 10, [0, 2, 4, 6, 8, 10], 0, 0, 0,
        ["0.00", "2.00", "4.00", "6.00", "8.00", "10.00"], none⟩ := by
  have hlast : ([0, 2, 4, 6, 8, 10] : List ℚ).getLast? = some (10 : ℚ) := rfl
  simp only [mkTicks]
  rw [if_neg (by norm_num : ¬(10 : ℚ) < 0),
    if_neg (by norm_num : ¬(10 : ℤ) < 1)]
  simp only [Option.getD_none, List.isEmpty_nil, if_true, genTicks_0_10_10,
    hlast, adjustors_evens, findClosestPrefixPower_ten, makeTickLabels_evens]
  norm_num

/-- Claim C6: for `min_data = 0`, `max_data = 10`, `max_ticks = 10` the
full pipeline produces tick values `[0, 2, 4, 6, 8, 10]` and tick labels
`["0.00", "2.00", "4.00", "6.00", "8.00", "10.00"]`. -/
theorem ticks_end_to_end_zero_ten :
    ∃ t, mkTicks 0 10 10 none none = .ok t ∧
      t.tick_values = [0, 2, 4, 6, 8, 10] ∧
      t.tick_labels = ["0.00", "2.00", "4.00", "6.00", "8.00", "10.00"] :=
  ⟨_, mkTicks_0_10_10, rfl, rfl⟩

/-! Section: General properties of `roundNumber` and `tickList` -/

lemma roundNumber_pos (number : ℚ) (limits terms : List ℚ) (ae : Bool)
    (hn : 0 < number) (hlen : limits.length = terms.length)
    (hterms : ∀ t ∈ terms, 0 < t) :
    ∃ r, roundNumber number limits terms ae = .ok r ∧ 0 < r := by
  rw [roundNumber, if_neg (not_le.mpr hn)]
  refine ⟨_, rfl, ?_⟩
  have hzp : (0 : ℚ) < (10 : ℚ) ^ floorLog10 number := by positivity
  set leading := number / (10 : ℚ) ^ floorLog10 number with hlead
  set idx := if ae then bisect_left limits leading
    else bisect_right limits leading with hidx
  have hround : (0 : ℚ) <
      (if (limits.length : ℤ) - 1 < (idx : ℤ) then (10 : ℚ)
       else terms.getD idx 0) := by
    split
    · norm_num
    · next hcond =>
      have hidxlt : idx < terms.length := by omega
      have : terms.getD idx 0 = terms[idx] := by
        rw [List.getD_eq_getElem?_getD, List.getElem?_eq_getElem hidxlt]
        rfl
      rw [this]
      exact hterms _ (List.getElem_mem hidxlt)
  positivity

lemma roundNumber_ok_pos {number r : ℚ} {limits terms : List ℚ} {ae : Bool}
    (h : roundNumber number limits terms ae = .ok r)
    (hlen : limits.length = terms.length) (hterms : ∀ t ∈ terms, 0 < t) :
    0 < number ∧ 0 < r := by
  by_cases hn : 0 < number
  · obtain ⟨r2, hr2, hr2p⟩ :=
      roundNumber_pos number limits terms ae hn hlen hterms
    rw [hr2] at h
    injection h with h2
    exact ⟨hn, h2 ▸ hr2p⟩
  · rw [roundNumber, if_pos (not_lt.mp hn)] at h
    exact absurd h (by simp)

lemma terms_pos_125 : ∀ t ∈ ([1, 2, 5] : List ℚ), 0 < t := by
  intro t ht
  simp only [List.mem_cons, List.not_mem_nil, or_false] at ht
  rcases ht with rfl | rfl | rfl <;> norm_num

lemma ceil_sub_floor_pos {a b s : ℚ} (hs : 0 < s) (hab : a < b) :
    1 ≤ ⌈b / s⌉ - ⌊a / s⌋ := by
  by_contra hcon
  push_neg at hcon
  have hle : ⌈b / s⌉ ≤ ⌊a / s⌋ := by omega
  have h1 : b / s ≤ ((⌈b / s⌉ : ℤ) : ℚ) := Int.le_ceil _
  have h2 : ((⌊a / s⌋ : ℤ) : ℚ) ≤ a / s := Int.floor_le _
  have hcast : ((⌈b / s⌉ : ℤ) : ℚ) ≤ ((⌊a / s⌋ : ℤ) : ℚ) := by
    exact_mod_cast hle
  have hdiv : b / s ≤ a / s := le_trans h1 (le_trans hcast h2)
  have hmul := mul_le_mul_of_nonneg_right hdiv hs.le
  rw [div_mul_cancel₀ _ hs.ne', div_mul_cancel₀ _ hs.ne'] at hmul
  linarith

lemma ceil_span_div {a b s : ℚ} (hs : 0 < s) :
    ⌈(((⌈b / s⌉ : ℤ) : ℚ) * s - ((⌊a / s⌋ : ℤ) : ℚ) * s) / s⌉ =
      ⌈b / s⌉ - ⌊a / s⌋ := by
  have hform : (((⌈b / s⌉ : ℤ) : ℚ) * s - ((⌊a / s⌋ : ℤ) : ℚ) * s) / s =
      ((⌈b / s⌉ - ⌊a / s⌋ : ℤ) : ℚ) := by
    field_simp
    ring
  rw [hform, Int.ceil_intCast]

lemma tickList_length (c s : ℚ) (n : ℤ) :
    (tickList c s n).length = n.toNat := by
  rw [tickList, List.length_map, List.length_range]

lemma tickList_getD (c s : ℚ) (n : ℤ) (i : ℕ) (h : i < n.toNat) :
    (tickList c s n).getD i 0 = c + (i : ℚ) * s := by
  rw [tickList, List.getD_eq_getElem?_getD, List.getElem?_map,
    List.getElem?_range h]
  rfl

lemma tickList_head? (c s : ℚ) (n : ℤ) (h : 0 < n) :
    (tickList c s n).head? = some c := by
  obtain ⟨m, hm⟩ : ∃ m, n.toNat = m + 1 := ⟨n.toNat - 1, by omega⟩
  rw [tickList, List.head?_map, hm, List.range_succ_eq_map, List.head?_cons]
  rw [Option.map_some']
  norm_num

lemma tickList_getLast? (c s : ℚ) (n : ℤ) (h : 0 < n) :
    (tickList c s n).getLast? = some (c + ((n - 1 : ℤ) : ℚ) * s) := by
  have hlen : (tickList c s n).length = n.toNat := tickList_length c s n
  rw [List.getLast?_eq_getElem?, hlen]
  have hlt : n.toNat - 1 < (tickList c s n).length := by omega
  rw [List.getElem?_eq_getElem hlt]
  simp only [tickList, List.getElem_map, List.getElem_range, Option.some.injEq]
  congr 1
  have hcast : ((n.toNat - 1 : ℕ) : ℤ) = n - 1 := by omega
  rw [show (((n.toNat - 1 : ℕ)) : ℚ) = (((n.toNat - 1 : ℕ) : ℤ) : ℚ) by
    push_cast; ring]
  rw [hcast]

lemma tickList_chain' (c s : ℚ) (n : ℤ) (hs : 0 < s) :
    List.Chain' (· < ·) (tickList c s n) := by
  rw [List.chain'_iff_get]
  intro i hi
  have hlen : (tickList c s n).length = n.toNat := tickList_length c s n
  rw [hlen] at hi
  have h1 : i < n.toNat := by omega
  have h2 : i + 1 < n.toNat := by omega
  have g1 : (tickList c s n).get ⟨i, by rw [hlen]; omega⟩ = c + (i : ℚ) * s := by
    rw [List.get_eq_getElem]
    simp only [tickList, List.getElem_map, List.getElem_range]
  have g2 : (tickList c s n).get ⟨i + 1, by rw [hlen]; omega⟩ =
      c + ((i + 1 : ℕ) : ℚ) * s := by
    rw [List.get_eq_getElem]
    simp only [tickList, List.getElem_map, List.getElem_range]
  rw [g1, g2]
  have hcast : ((i : ℕ) : ℚ) < ((i + 1 : ℕ) : ℚ) := by
    exact_mod_cast Nat.lt_succ_self i
  have := mul_lt_mul_of_pos_right hcast hs
  linarith

/-! Section: Length of `_get_tick_values` results -/

set_option maxHeartbeats 1000000 in
lemma genTicks_ok_length {minData maxData : ℚ} {maxTicks : ℤ} {l : List ℚ}
    (h : genTicks minData maxData maxTicks = .ok l) :
    1 ≤ l.length ∧ (1 ≤ maxTicks → (l.length : ℤ) ≤ maxTicks) := by
  simp only [genTicks] at h
  by_cases h1 : maxData = minData
  · rw [if_pos h1] at h
    injection h with h2
    rw [← h2]
    exact ⟨by norm_num, fun hm => by norm_num; omega⟩
  · rw [if_neg h1] at h
    by_cases h2 : maxTicks = 1
    · rw [if_pos h2] at h
      injection h with h3
      rw [← h3]
      exact ⟨by norm_num, fun hm => by norm_num; omega⟩
    · rw [if_neg h2] at h
      by_cases h3 : maxTicks ≤ 0
      · rw [if_pos h3] at h
        exact absurd h (by simp)
      · rw [if_neg h3] at h
        rcases hrr : roundNumber (maxData - minData) [3 / 2, 3, 7] [1, 2, 5]
            false with e | rr
        · simp only [hrr] at h
          exact absurd h (by simp)
        · simp only [hrr] at h
          rcases hs : roundNumber (rr / ((maxTicks : ℚ) - 1)) [1, 2, 5]
              [1, 2, 5] true with e | s
          · simp only [hs] at h
            exact absurd h (by simp)
          · simp only [hs] at h
            obtain ⟨hdr, _⟩ := roundNumber_ok_pos hrr rfl terms_pos_125
            obtain ⟨_, hspos⟩ := roundNumber_ok_pos hs rfl terms_pos_125
            have hlt : minData < maxData := by linarith
            have hk := ceil_sub_floor_pos hspos hlt
            rw [ceil_span_div hspos] at h
            by_cases hfb : maxTicks < ⌈maxData / s⌉ - ⌊minData / s⌋ + 1
            · rw [if_pos hfb] at h
              injection h with h4
              rw [← h4, tickList_length]
              exact ⟨by omega, fun hm => by omega⟩
            · rw [if_neg hfb] at h
              injection h with h4
              rw [← h4, tickList_length]
              exact ⟨by omega, fun hm => by omega⟩

/-- Claim C1: for `min_data < max_data` and `max_ticks ≥ 2`,
`_get_tick_values` succeeds with at least two strictly ascending values,
whose first element is `≤ min_data` and last element is `≥ max_data`;
in the fallback branch the first element is exactly `min_data`, the
spacing is constantly `(max_data - min_data) / (max_ticks - 1)`, and the
last element is exactly `max_data`. -/
theorem genTicks_ascending_bounds (minData maxData : ℚ) (maxTicks : ℤ)
    (hlt : minData < maxData) (hmt : 2 ≤ maxTicks) :
    ∃ l, genTicks minData maxData maxTicks = .ok l ∧
      2 ≤ l.length ∧ List.Chain' (· < ·) l ∧
      (∀ a, l.head? = some a → a ≤ minData) ∧
      (∀ b, l.getLast? = some b → maxData ≤ b) ∧
      (genTicksFallback minData maxData maxTicks = true →
        l.head? = some minData ∧ l.getLast? = some maxData ∧
        ∀ i : ℕ, i + 1 < l.length →
          l.getD (i + 1) 0 - l.getD i 0 =
            (maxData - minData) / ((maxTicks : ℚ) - 1)) := by
  have hne : ¬maxData = minData := ne_of_gt hlt
  have hne1 : ¬maxTicks = 1 := by omega
  have hnle : ¬maxTicks ≤ 0 := by omega
  have hdr : 0 < maxData - minData := by linarith
  obtain ⟨rr, hrr, hrrpos⟩ := roundNumber_pos (maxData - minData)
    [3 / 2, 3, 7] [1, 2, 5] false hdr rfl terms_pos_125
  have hmtq : (1 : ℚ) < (maxTicks : ℚ) := by
    exact_mod_cast (by omega : (1 : ℤ) < maxTicks)
  have hsp : 0 < rr / ((maxTicks : ℚ) - 1) := div_pos hrrpos (by linarith)
  obtain ⟨s, hs, hspos⟩ := roundNumber_pos (rr / ((maxTicks : ℚ) - 1))
    [1, 2, 5] [1, 2, 5] true hsp rfl terms_pos_125
  have hk : 1 ≤ ⌈maxData / s⌉ - ⌊minData / s⌋ := ceil_sub_floor_pos hspos hlt
  have hceil := @ceil_span_div minData maxData s hspos
  have hfb_eq : genTicksFallback minData maxData maxTicks =
      decide (maxTicks < ⌈maxData / s⌉ - ⌊minData / s⌋ + 1) := by
    simp only [genTicksFallback, if_neg hne, if_neg hne1, if_neg hnle, hrr,
      hs, hceil]
  simp only [genTicks, if_neg hne, if_neg hne1, if_neg hnle, hrr, hs, hceil]
  by_cases hfb : maxTicks < ⌈maxData / s⌉ - ⌊minData / s⌋ + 1
  · rw [if_pos hfb]
    have hsp2 : 0 < (maxData - minData) / ((maxTicks : ℚ) - 1) :=
      div_pos hdr (by linarith)
    have hcast : ((maxTicks - 1 : ℤ) : ℚ) = (maxTicks : ℚ) - 1 := by
      push_cast
      ring
    have hlastval : minData + ((maxTicks - 1 : ℤ) : ℚ) *
        ((maxData - minData) / ((maxTicks : ℚ) - 1)) = maxData := by
      rw [hcast, mul_div_cancel₀ _ (by linarith : (maxTicks : ℚ) - 1 ≠ 0)]
      ring
    refine ⟨_, rfl, ?_, tickList_chain' _ _ _ hsp2, ?_, ?_, ?_⟩
    · rw [tickList_length]
      omega
    · intro a ha
      rw [tickList_head? _ _ _ (by omega)] at ha
      injection ha with ha
      exact le_of_eq ha.symm
    · intro b hb
      rw [tickList_getLast? _ _ _ (by omega)] at hb
      injection hb with hb
      rw [hlastval] at hb
      exact le_of_eq hb
    · intro _
      refine ⟨tickList_head? _ _ _ (by omega), ?_, ?_⟩
      · rw [tickList_getLast? _ _ _ (by omega), hlastval]
      · intro i hi
        rw [tickList_length] at hi
        rw [tickList_getD _ _ _ (i + 1) (by omega),
          tickList_getD _ _ _ i (by omega)]
        push_cast
        ring
  · rw [if_neg hfb]
    have hfloor_le : ((⌊minData / s⌋ : ℤ) : ℚ) * s ≤ minData := by
      have h1 : ((⌊minData / s⌋ : ℤ) : ℚ) ≤ minData / s := Int.floor_le _
      have h2 := mul_le_mul_of_nonneg_right h1 hspos.le
      rwa [div_mul_cancel₀ _ hspos.ne'] at h2
    have hceil_ge : maxData ≤ ((⌈maxData / s⌉ : ℤ) : ℚ) * s := by
      have h1 : maxData / s ≤ ((⌈maxData / s⌉ : ℤ) : ℚ) := Int.le_ceil _
      have h2 := mul_le_mul_of_nonneg_right h1 hspos.le
      rwa [div_mul_cancel₀ _ hspos.ne'] at h2
    have hlastval : ((⌊minData / s⌋ : ℤ) : ℚ) * s +
        ((⌈maxData / s⌉ - ⌊minData / s⌋ + 1 - 1 : ℤ) : ℚ) * s =
        ((⌈maxData / s⌉ : ℤ) : ℚ) * s := by
      push_cast
      ring
    refine ⟨_, rfl, ?_, tickList_chain' _ _ _ hspos, ?_, ?_, ?_⟩
    · rw [tickList_length]
      omega
    · intro a ha
      rw [tickList_head? _ _ _ (by omega)] at ha
      injection ha with ha
      rw [ha] at hfloor_le
      exact hfloor_le
    · intro b hb
      rw [tickList_getLast? _ _ _ (by omega)] at hb
      injection hb with hb
      rw [hlastval] at hb
      rw [hb] at hceil_ge
      exact hceil_ge
    · intro hcontra
      rw [hfb_eq] at hcontra
      simp only [decide_eq_true_eq] at hcontra
      omega

/-- Witness for `genTicks_ascending_bounds` at
`min_data = 0`, `max_data = 6`, `max_ticks = 2`. -/
theorem genTicks_ascending_bounds_witness :
    ∃ l, genTicks 0 6 2 = .ok l ∧
      2 ≤ l.length ∧ List.Chain' (· < ·) l ∧
      (∀ a, l.head? = some a → a ≤ 0) ∧
      (∀ b, l.getLast? = some b → 6 ≤ b) ∧
      (genTicksFallback 0 6 2 = true →
        l.head? = some 0 ∧ l.getLast? = some 6 ∧
        ∀ i : ℕ, i + 1 < l.length →
          l.getD (i + 1) 0 - l.getD i 0 = (6 - 0) / (((2 : ℤ) : ℚ) - 1)) :=
  genTicks_ascending_bounds 0 6 2 (by decide) (by decide)

/-! Section: Validation and override behaviour of `Ticks.__post_init__` -/

/-- Claim C5: `Ticks` construction fails with the range error whenever
`min_data > max_data` (whatever `max_ticks` is), and fails with the count
error whenever `min_data ≤ max_data` and `max_ticks < 1`; it never
returns a result in those cases. -/
theorem ticks_validation_errors (minD maxD : ℚ) (mt : ℤ)
    (tv : Option (List ℚ)) (tl : Option (List String)) :
    (maxD < minD → mkTicks minD maxD mt tv tl =
      .error "min_data must be less than or equal to max_data") ∧
    (minD ≤ maxD → mt < 1 → mkTicks minD maxD mt tv tl =
      .error "max_ticks must be 1 or greater") := by
  constructor
  · intro h
    rw [mkTicks, if_pos h]
  · intro h1 h2
    rw [mkTicks, if_neg (not_lt.mpr h1), if_pos h2]

/-- Witness for `ticks_validation_errors` at concrete inputs
`(1, 0, 5)` and `(0, 1, 0)`. -/
theorem ticks_validation_errors_witness :
    mkTicks 1 0 5 none none =
      .error "min_data must be less than or equal to max_data" ∧
    mkTicks 0 1 0 none none = .error "max_ticks must be 1 or greater" :=
  ⟨(ticks_validation_errors 1 0 5 none none).1 (by decide),
   (ticks_validation_errors 0 1 0 none none).2 (by decide) (by decide)⟩

lemma mkTicks_auto_ok {minD maxD : ℚ} {mt : ℤ} {t : TicksData}
    (h : mkTicks minD maxD mt none none = .ok t) :
    genTicks minD maxD mt = .ok t.tick_values ∧
      t.tick_labels.length = t.tick_values.length ∧ 1 ≤ mt ∧ ¬maxD < minD := by
  simp only [mkTicks, Option.getD_none, List.isEmpty_nil, if_true] at h
  by_cases h1 : maxD < minD
  · rw [if_pos h1] at h
    exact absurd h (by simp)
  · rw [if_neg h1] at h
    by_cases h2 : mt < 1
    · rw [if_pos h2] at h
      exact absurd h (by simp)
    · rw [if_neg h2] at h
      rcases hg : genTicks minD maxD mt with e | values
      · simp only [hg] at h
        exact absurd h (by simp)
      · simp only [hg] at h
        rcases hlast : values.getLast? with _ | lastValue
        · simp only [hlast] at h
          exact absurd h (by simp)
        · simp only [hlast] at h
          rcases hadj : getAxisLabelAdjustors values with e | pair
          · simp only [hadj] at h
            exact absurd h (by simp)
          · obtain ⟨asub, tdp⟩ := pair
            simp only [hadj] at h
            by_cases hlen : values.length ≠ (makeTickLabels values asub tdp).length
            · rw [if_pos hlen] at h
              exact absurd h (by simp)
            · rw [if_neg hlen] at h
              injection h with h4
              push_neg at hlen
              rw [← h4]
              exact ⟨rfl, hlen.symm, by omega, h1⟩

/-- Claim C10: supplying `tick_values` or `tick_labels` as an empty list
is treated exactly as not supplying them (they are falsy in Python, so
auto-computation kicks in), and a successfully constructed `Ticks` never
holds an empty tick value or label list. -/
theorem ticks_empty_overrides (minD maxD : ℚ) (mt : ℤ)
    (h1 : minD ≤ maxD) (h2 : 1 ≤ mt) :
    (mkTicks minD maxD mt (some []) (some []) =
        mkTicks minD maxD mt none none ∧
      mkTicks minD maxD mt (some []) none = mkTicks minD maxD mt none none ∧
      mkTicks minD maxD mt none (some []) = mkTicks minD maxD mt none none) ∧
    ∀ t, mkTicks minD maxD mt none none = .ok t →
      t.tick_values ≠ [] ∧ t.tick_labels ≠ [] := by
  refine ⟨⟨rfl, rfl, rfl⟩, ?_⟩
  intro t ht
  obtain ⟨hg, hlab, _, _⟩ := mkTicks_auto_ok ht
  obtain ⟨hlen, _⟩ := genTicks_ok_length hg
  constructor
  · intro hnil
    rw [hnil] at hlen
    simp at hlen
  · intro hnil
    rw [hnil] at hlab
    simp at hlab
    omega

/-- Witness for `ticks_empty_overrides` at `(0, 10, 10)`, using the
evaluated pipeline of `mkTicks_0_10_10`. -/
theorem ticks_empty_overrides_witness :
    (mkTicks 0 10 10 (some []) (some []) = mkTicks 0 10 10 none none ∧
      mkTicks 0 10 10 (some []) none = mkTicks 0 10 10 none none ∧
      mkTicks 0 10 10 none (some []) = mkTicks 0 10 10 none none) ∧
    ∀ t, mkTicks 0 10 10 none none = .ok t →
      t.tick_values ≠ [] ∧ t.tick_labels ≠ [] :=
  ticks_empty_overrides 0 10 10 (by decide) (by decide)

/-! Section: `XAxis` layout arithmetic -/

lemma mkXAxis_auto_ok {minD maxD : ℚ} {p m w : ℤ} {x : XAxisData}
    (h : mkXAxis minD maxD p m w none none = .ok x) :
    ∃ t, mkTicks minD maxD (1 + (w - (2 * p + 1)).fdiv ((2 * p + 1) + m))
        none none = .ok t ∧
      x = ⟨t, w, p, t.tick_values.length,
        xTickMargin p w t.tick_values.length,
        xLeftPadding p w t.tick_values.length,
        xRightPadding p w t.tick_values.length,
        xTickPositions p w t.tick_values.length,
        makeXAxisColumns t.tick_values.length p
          (xLeftPadding p w t.tick_values.length)
          (xRightPadding p w t.tick_values.length)
          (xTickMargin p w t.tick_values.length)⟩ := by
  simp only [mkXAxis] at h
  by_cases h1 : p < 0 ∨ m < 0 ∨ w < 0
  · rw [if_pos h1] at h
    exact absurd h (by simp)
  · rw [if_neg h1] at h
    by_cases h2 : w < 2 * p + 1
    · rw [if_pos h2] at h
      exact absurd h (by simp)
    · rw [if_neg h2] at h
      rcases hmk : mkTicks minD maxD
          (1 + (w - (2 * p + 1)).fdiv ((2 * p + 1) + m)) none none with e | t
      · simp only [hmk] at h
        exact absurd h (by simp)
      · simp only [hmk] at h
        injection h with h4
        exact ⟨t, rfl, h4.symm⟩

lemma n_mul_le_width {p m w : ℤ} {n : ℕ} (hp : 0 ≤ p) (hm : 0 ≤ m)
    (hw : 2 * p + 1 ≤ w) (hn1 : 1 ≤ n)
    (hn2 : (n : ℤ) ≤ 1 + (w - (2 * p + 1)).fdiv ((2 * p + 1) + m)) :
    xTotalTickSpace p n ≤ w := by
  rw [xTotalTickSpace]
  rcases Nat.lt_or_ge n 2 with h1 | h1
  · have : n = 1 := by omega
    subst this
    push_cast
    linarith
  · have hd : (0 : ℤ) < (2 * p + 1) + m := by omega
    rw [Int.fdiv_eq_ediv _ (by omega : (0 : ℤ) ≤ (2 * p + 1) + m)] at hn2
    have e1 : ((n : ℤ) - 1) * ((2 * p + 1) + m) ≤ w - (2 * p + 1) :=
      (Int.le_ediv_iff_mul_le hd).mp (by omega)
    have e2 : ((n : ℤ) - 1) * (2 * p + 1) ≤ ((n : ℤ) - 1) * ((2 * p + 1) + m) :=
      mul_le_mul_of_nonneg_left (by omega) (by
        have : (2 : ℤ) ≤ (n : ℤ) := by exact_mod_cast h1
        omega)
    nlinarith [e1, e2]

lemma taken_le_width {p m w : ℤ} {n : ℕ} (hp : 0 ≤ p) (hm : 0 ≤ m)
    (hw : 2 * p + 1 ≤ w) (hn1 : 1 ≤ n)
    (hn2 : (n : ℤ) ≤ 1 + (w - (2 * p + 1)).fdiv ((2 * p + 1) + m)) :
    xTotalTakenSpace p w n ≤ w := by
  rw [xTotalTakenSpace]
  rcases Nat.lt_or_ge n 2 with h1 | h1
  · have hn : n = 1 := by omega
    subst hn
    rw [xTickMargin, xTickMarginRaw, if_neg (by omega : ¬1 < 1)]
    rw [xTotalTickSpace]
    push_cast
    norm_num
    linarith
  · have hkey := n_mul_le_width hp hm hw hn1 hn2
    have hn2' : (2 : ℤ) ≤ (n : ℤ) := by exact_mod_cast h1
    have hraw_nonneg : 0 ≤ xTickMarginRaw p w n := by
      rw [xTickMarginRaw, if_pos (by omega : 1 < n)]
      rw [Int.fdiv_eq_ediv _ (by omega : (0 : ℤ) ≤ (n : ℤ) - 1)]
      exact Int.ediv_nonneg (by linarith) (by omega)
    have hmargin : xTickMargin p w n = xTickMarginRaw p w n :=
      max_eq_left hraw_nonneg
    have hbound : xTickMarginRaw p w n * ((n : ℤ) - 1) ≤
        w - xTotalTickSpace p n := by
      rw [xTickMarginRaw, if_pos (by omega : 1 < n)]
      rw [Int.fdiv_eq_ediv _ (by omega : (0 : ℤ) ≤ (n : ℤ) - 1)]
      exact Int.ediv_mul_le _ (by omega)
    rw [hmargin]
    linarith

lemma extra_eq {p w : ℤ} {n : ℕ} (htaken : xTotalTakenSpace p w n ≤ w) :
    xExtraSpace p w n = w - xTotalTakenSpace p w n := by
  rw [xExtraSpace]
  exact max_eq_left (by linarith)

lemma left_right_sum (p w : ℤ) (n : ℕ) :
    0 ≤ xLeftPadding p w n ∧ 0 ≤ xRightPadding p w n ∧
      xLeftPadding p w n + xRightPadding p w n = xExtraSpace p w n := by
  have hextra : 0 ≤ xExtraSpace p w n := le_max_right _ _
  have hleft : 0 ≤ xLeftPadding p w n := by
    rw [xLeftPadding, Int.fdiv_eq_ediv _ (by norm_num : (0 : ℤ) ≤ 2)]
    exact Int.ediv_nonneg hextra (by norm_num)
  have hle : xLeftPadding p w n ≤ xExtraSpace p w n := by
    rw [xLeftPadding, Int.fdiv_eq_ediv _ (by norm_num : (0 : ℤ) ≤ 2)]
    exact Int.ediv_le_self _ hextra
  refine ⟨hleft, ?_, ?_⟩
  · rw [xRightPadding]
    exact le_max_right _ 0
  · rw [xRightPadding, max_eq_left (by linarith)]
    ring

lemma altSum (a b : ℤ) :
    ∀ k : ℕ, ((List.range (2 * (k + 1) - 1)).map
        (fun i => if i % 2 = 0 then a else b)).sum =
      (k + 1 : ℤ) * a + (k : ℤ) * b := by
  intro k
  induction k with
  | zero =>
    rw [show 2 * (0 + 1) - 1 = 1 from rfl, show List.range 1 = [0] from rfl]
    simp
  | succ k ih =>
    have h1 : 2 * (k + 1 + 1) - 1 = 2 * (k + 1) - 1 + 1 + 1 := by omega
    rw [h1, List.range_succ, List.range_succ]
    rw [List.map_append, List.map_append, List.sum_append, List.sum_append]
    rw [ih]
    simp only [List.map_cons, List.map_nil, List.sum_cons, List.sum_nil]
    rw [if_neg (by omega : ¬(2 * (k + 1) - 1) % 2 = 0),
      if_pos (by omega : (2 * (k + 1) - 1 + 1) % 2 = 0)]
    push_cast
    ring

lemma makeXAxisColumns_sum (n : ℕ) (hn : 1 ≤ n) (p l r mg : ℤ) :
    ((makeXAxisColumns n p l r mg).map Prod.snd).sum =
      l + ((n : ℤ) * (2 * p + 1) + ((n : ℤ) - 1) * mg) + r := by
  obtain ⟨k, rfl⟩ : ∃ k, n = k + 1 := ⟨n - 1, by omega⟩
  rw [makeXAxisColumns]
  rw [List.map_append, List.map_append, List.sum_append, List.sum_append]
  rw [List.map_map]
  have hcomp : (Prod.snd ∘ fun columnNumber : ℕ =>
      if columnNumber % 2 = 0 then (("xtick" : String), 2 * p + 1)
      else ("xtick_margin", mg)) =
      fun i : ℕ => if i % 2 = 0 then 2 * p + 1 else mg := by
    funext i
    by_cases hi : i % 2 = 0
    · simp [hi]
    · simp [hi]
  rw [hcomp, altSum]
  simp only [List.map_cons, List.map_nil, List.sum_cons, List.sum_nil]
  push_cast
  ring

/-- Claim C2: for every valid horizontal-layout input with auto-generated
ticks (non-negative `tick_padding`, `min_tick_margin`, `width` with
`2 * tick_padding + 1 ≤ width` and `min_data ≤ max_data`), the widths of
the emitted columns (left padding, tick blocks, margins, right padding)
sum to exactly the requested `width`. -/
theorem xaxis_width_sum (minD maxD : ℚ) (p m w : ℤ) (x : XAxisData)
    (hp : 0 ≤ p) (hm : 0 ≤ m) (hw : 2 * p + 1 ≤ w) (hdata : minD ≤ maxD)
    (hx : mkXAxis minD maxD p m w none none = .ok x) :
    (x.table_columns.map Prod.snd).sum = w := by
  obtain ⟨t, hmk, hxeq⟩ := mkXAxis_auto_ok hx
  obtain ⟨hg, _, hmt1, _⟩ := mkTicks_auto_ok hmk
  obtain ⟨hn1, hn2f⟩ := genTicks_ok_length hg
  have hn2 := hn2f hmt1
  subst hxeq
  have htaken := taken_le_width hp hm hw hn1 hn2
  have hextra := extra_eq htaken
  obtain ⟨hl0, hr0, hlr⟩ := left_right_sum p w t.tick_values.length
  show ((makeXAxisColumns t.tick_values.length p
      (xLeftPadding p w t.tick_values.length)
      (xRightPadding p w t.tick_values.length)
      (xTickMargin p w t.tick_values.length)).map Prod.snd).sum = w
  rw [makeXAxisColumns_sum t.tick_values.length hn1]
  have htt : (t.tick_values.length : ℤ) * (2 * p + 1) +
      ((t.tick_values.length : ℤ) - 1) * xTickMargin p w t.tick_values.length =
      xTotalTakenSpace p w t.tick_values.length := by
    rw [xTotalTakenSpace, xTotalTickSpace]
    ring
  rw [htt]
  linarith


/-! Section: `tick_positions` (claim C7) -/

lemma pyRange_length (start stop step : ℤ) (hstep : 0 < step) :
    (pyRange start stop step).length =
      ((stop - start + step - 1).fdiv step).toNat := by
  rw [pyRange, if_pos hstep, List.length_map, List.length_range]

lemma pyRange_getD (start stop step : ℤ) (hstep : 0 < step) (k : ℕ)
    (hk : k < (pyRange start stop step).length) :
    (pyRange start stop step).getD k 0 = start + (k : ℤ) * step := by
  rw [pyRange_length start stop step hstep] at hk
  rw [pyRange, if_pos hstep, List.getD_eq_getElem?_getD, List.getElem?_map,
    List.getElem?_range hk]
  rfl

/-- Claim C7, amended: `tick_positions` starts at
`tick_padding + left_padding` and steps by
`tick_margin + 2 * tick_padding + 1`, and it contains **at least**
`number_of_xticks` entries — but (contrary to the claim as stated) it can
contain more, because the Python `range` runs all the way up to `width`
inclusive. -/
theorem xaxis_tick_positions_amended (minD maxD : ℚ) (p m w : ℤ)
    (x : XAxisData) (hp : 0 ≤ p) (hm : 0 ≤ m) (hw : 2 * p + 1 ≤ w)
    (hx : mkXAxis minD maxD p m w none none = .ok x) :
    x.number_of_xticks ≤ x.tick_positions.length ∧
      ∀ k : ℕ, k < x.tick_positions.length →
        x.tick_positions.getD k 0 =
          x.tick_padding + x.left_padding +
            (k : ℤ) * (x.tick_margin + 2 * x.tick_padding + 1) := by
  obtain ⟨t, hmk, hxeq⟩ := mkXAxis_auto_ok hx
  obtain ⟨hg, _, hmt1, _⟩ := mkTicks_auto_ok hmk
  obtain ⟨hn1, hn2f⟩ := genTicks_ok_length hg
  have hn2 := hn2f hmt1
  subst hxeq
  have hmg0 : (0 : ℤ) ≤ xTickMargin p w t.tick_values.length :=
    le_max_right _ _
  have hstep : (0 : ℤ) < xTickMargin p w t.tick_values.length + 2 * p + 1 := by
    linarith
  constructor
  · show t.tick_values.length ≤ (xTickPositions p w t.tick_values.length).length
    rw [xTickPositions, pyRange_length _ _ _ hstep]
    have htaken := taken_le_width hp hm hw hn1 hn2
    have hextra := extra_eq htaken
    obtain ⟨hl0, hr0, hlr⟩ := left_right_sum p w t.tick_values.length
    have hexp : p + xLeftPadding p w t.tick_values.length +
        ((t.tick_values.length : ℤ) - 1) *
          (xTickMargin p w t.tick_values.length + 2 * p + 1) =
        xLeftPadding p w t.tick_values.length +
          xTotalTakenSpace p w t.tick_values.length - p - 1 := by
      rw [xTotalTakenSpace, xTotalTickSpace]
      ring
    have hkey : p + xLeftPadding p w t.tick_values.length +
        ((t.tick_values.length : ℤ) - 1) *
          (xTickMargin p w t.tick_values.length + 2 * p + 1) ≤ w := by
      rw [hexp]
      linarith
    have hediv : (t.tick_values.length : ℤ) ≤
        (w + 1 - (p + xLeftPadding p w t.tick_values.length) +
          (xTickMargin p w t.tick_values.length + 2 * p + 1) - 1).fdiv
          (xTickMargin p w t.tick_values.length + 2 * p + 1) := by
      rw [Int.fdiv_eq_ediv _ (by linarith)]
      rw [Int.le_ediv_iff_mul_le hstep]
      have hsplit : (t.tick_values.length : ℤ) *
          (xTickMargin p w t.tick_values.length + 2 * p + 1) =
          ((t.tick_values.length : ℤ) - 1) *
            (xTickMargin p w t.tick_values.length + 2 * p + 1) +
            (xTickMargin p w t.tick_values.length + 2 * p + 1) := by
        ring
      linarith
    calc t.tick_values.length
        = ((t.tick_values.length : ℤ)).toNat := (Int.toNat_natCast _).symm
      _ ≤ _ := Int.toNat_le_toNat hediv
  · intro k hk
    show (xTickPositions p w t.tick_values.length).getD k 0 =
      p + xLeftPadding p w t.tick_values.length +
        (k : ℤ) * (xTickMargin p w t.tick_values.length + 2 * p + 1)
    rw [xTickPositions] at hk ⊢
    exact pyRange_getD _ _ _ hstep k hk

/-! Section: Concrete `XAxis` evaluation at `(0, 3, 0, 0, 6)` -/

lemma floorLog10_three : floorLog10 3 = 0 :=
  floorLog10_eq_of 3 0 (by norm_num) (by norm_num) (by norm_num)

lemma formatTwoDecimals_1 : formatTwoDecimals 1 = "1.00" := by
  rw [formatTwoDecimals_of 1 100 (by norm_num) (by norm_num)]
  decide

lemma findClosestPrefixPower_three : findClosestPrefixPower 3 = 0 := by
  rw [findClosestPrefixPower, if_pos (by norm_num : (3 : ℚ) ≠ 0)]
  rw [show |(3 : ℚ)| = 3 from abs_of_pos (by norm_num)]
  rw [floorLog10_three]
  decide

lemma roundNumber_three :
    roundNumber 3 [3 / 2, 3, 7] [1, 2, 5] false = .ok 5 := by
  simp only [roundNumber, floorLog10_three]
  norm_num [bisect_right, List.getD]

lemma roundNumber_one :
    roundNumber 1 [1, 2, 5] [1, 2, 5] true = .ok 1 := by
  simp only [roundNumber, floorLog10_one]
  norm_num [bisect_left, List.getD]

lemma tickList_0_1_4 : tickList 0 1 4 = [0, 1, 2, 3] := by
  rw [tickList, show ((4 : ℤ).toNat) = 4 from rfl,
    show List.range 4 = [0, 1, 2, 3] from rfl]
  simp only [List.map]
  norm_num

lemma genTicks_0_3_6 : genTicks 0 3 6 = .ok [0, 1, 2, 3] := by
  have hspacing : (5 : ℚ) / (((6 : ℤ) : ℚ) - 1) = 1 := by norm_num
  have hfl : (⌊(0 : ℚ) / 1⌋ : ℤ) = 0 := by norm_num
  have hce : (⌈(3 : ℚ) / 1⌉ : ℤ) = 3 := by
    rw [Int.ceil_eq_iff] <;> norm_num
  simp only [genTicks]
  rw [if_neg (by norm_num : ¬(3 : ℚ) = 0),
    if_neg (by norm_num : ¬(6 : ℤ) = 1),
    if_neg (by norm_num : ¬(6 : ℤ) ≤ 0)]
  rw [show (3 : ℚ) - 0 = 3 by norm_num]
  rw [roundNumber_three]
  simp only [hspacing]
  rw [roundNumber_one]
  simp only [hfl, hce]
  rw [show ((0 : ℤ) : ℚ) * 1 = 0 by norm_num,
    show ((3 : ℤ) : ℚ) * 1 = 3 by norm_num]
  rw [show (⌈((3 : ℚ) - 0) / 1⌉ : ℤ) = 3 by
    rw [Int.ceil_eq_iff] <;> norm_num]
  rw [if_neg (by norm_num : ¬(6 : ℤ) < 3 + 1),
    show (3 : ℤ) + 1 = 4 from rfl, tickList_0_1_4]

lemma getMinStepSize_0123 : getMinStepSize [0, 1, 2, 3] = .ok 1 := by
  have hz : ([0, 1, 2, 3] : List ℚ).zip ([0, 1, 2, 3] : List ℚ).tail =
      [(0, 1), (1, 2), (2, 3)] := rfl
  simp only [getMinStepSize, hz, pyMinBy, List.foldl]
  norm_num [floorLog10_one]

lemma adjustors_0123 : getAxisLabelAdjustors [0, 1, 2, 3] = .ok (0, 0) := by
  have hlast : ([0, 1, 2, 3] : List ℚ).getLast? = some (3 : ℚ) := rfl
  have hlen : ([0, 1, 2, 3] : List ℚ).length = 4 := rfl
  simp only [getAxisLabelAdjustors, hlast, hlen, getMinStepSize_0123,
    findClosestPrefixPower_three, floorLog10_one]
  norm_num

lemma makeTickLabels_0123 :
    makeTickLabels [0, 1, 2, 3] 0 0 = ["0.00", "1.00", "2.00", "3.00"] := by
  have e0 : ((0 : ℚ) - 0) / (10 : ℚ) ^ (0 : ℤ) = 0 := by norm_num
  have e1 : ((1 : ℚ) - 0) / (10 : ℚ) ^ (0 : ℤ) = 1 := by norm_num
  have e2 : ((2 : ℚ) - 0) / (10 : ℚ) ^ (0 : ℤ) = 2 := by norm_num
  have e3 : ((3 : ℚ) - 0) / (10 : ℚ) ^ (0 : ℤ) = 3 := by norm_num
  simp only [makeTickLabels, List.map, getMetricPrefix_zero, e0, e1, e2, e3,
    formatTwoDecimals_0, formatTwoDecimals_1, formatTwoDecimals_2,
    formatTwoDecimals_3]
  decide

/-- The `Ticks` produced by `Ticks(min_data=0, max_data=3, max_ticks=6)`. -/
def ticksData_0_3_6 : TicksData :=
  ⟨0, 3, 6, [0, 1, 2, 3], 0, 0, 0, ["0.00", "1.00", "2.00", "3.00"], none⟩

lemma mkTicks_0_3_6 : mkTicks 0 3 6 none none = .ok ticksData_0_3_6 := by
  have hlast : ([0, 1, 2, 3] : List ℚ).getLast? = some (3 : ℚ) := rfl
  simp only [mkTicks]
  rw [if_neg (by norm_num : ¬(3 : ℚ) < 0),
    if_neg (by norm_num : ¬(6 : ℤ) < 1)]
  simp only [Option.getD_none, List.isEmpty_nil, if_true, genTicks_0_3_6,
    hlast, adjustors_0123, findClosestPrefixPower_three, makeTickLabels_0123]
  norm_num [ticksData_0_3_6]

/-- The `XAxis` produced by
`XAxis(min_data=0, max_data=3, tick_padding=0, min_tick_margin=0, width=6)`:
4 ticks but 6 entries in `tick_positions`. -/
def xaxisData_6 : XAxisData :=
  ⟨ticksData_0_3_6, 6, 0, 4, 0, 1, 1, [1, 2, 3, 4, 5, 6],
   [("left_padding", 1), ("xtick", 1), ("xtick_margin", 0), ("xtick", 1),
    ("xtick_margin", 0), ("xtick", 1), ("xtick_margin", 0), ("xtick", 1),
    ("right_padding", 1)]⟩

lemma mkXAxis_0_3_0_0_6 : mkXAxis 0 3 0 0 6 none none = .ok xaxisData_6 := by
  simp only [mkXAxis]
  rw [if_neg (by decide : ¬((0 : ℤ) < 0 ∨ (0 : ℤ) < 0 ∨ (6 : ℤ) < 0)),
    if_neg (by decide : ¬(6 : ℤ) < 2 * 0 + 1)]
  rw [show 1 + ((6 : ℤ) - (2 * 0 + 1)).fdiv (2 * 0 + 1 + 0) = 6 by decide]
  rw [mkTicks_0_3_6]
  rfl

/-- Claim C7 counterexample: for
`XAxis(min_data=0, max_data=3, tick_padding=0, min_tick_margin=0, width=6)`
the code produces 4 ticks but `tick_positions` has 6 entries, so
`tick_positions` does **not** contain exactly `number_of_xticks`
entries. -/
theorem tick_positions_count_counterexample :
    mkXAxis 0 3 0 0 6 none none = .ok xaxisData_6 ∧
      xaxisData_6.number_of_xticks = 4 ∧
      xaxisData_6.tick_positions.length = 6 ∧
      xaxisData_6.tick_positions.length ≠ xaxisData_6.number_of_xticks :=
  ⟨mkXAxis_0_3_0_0_6, rfl, rfl, by decide⟩

/-- Witness for `xaxis_tick_positions_amended` at `(0, 3, 0, 0, 6)`. -/
theorem xaxis_tick_positions_amended_witness :
    xaxisData_6.number_of_xticks ≤ xaxisData_6.tick_positions.length ∧
      xaxisData_6.tick_positions.getD 0 0 =
        xaxisData_6.tick_padding + xaxisData_6.left_padding +
          ((0 : ℕ) : ℤ) *
            (xaxisData_6.tick_margin + 2 * xaxisData_6.tick_padding + 1) := by
  obtain ⟨h1, h2⟩ := xaxis_tick_positions_amended 0 3 0 0 6 xaxisData_6
    (by decide) (by decide) (by decide) mkXAxis_0_3_0_0_6
  exact ⟨h1, h2 0 (by decide)⟩

/-- Witness for `xaxis_width_sum` at `(0, 3, 0, 0, 6)`. -/
theorem xaxis_width_sum_witness :
    (xaxisData_6.table_columns.map Prod.snd).sum = 6 :=
  xaxis_width_sum 0 3 0 0 6 xaxisData_6 (by decide) (by decide) (by decide)
    (by decide) mkXAxis_0_3_0_0_6

/-! Section: Concrete `YAxis` evaluation at
`(min_data=0, max_data=5, min_tick_margin=2, length=5, width=10, "left")` -/

lemma floorLog10_five : floorLog10 5 = 0 :=
  floorLog10_eq_of 5 0 (by norm_num) (by norm_num) (by norm_num)

lemma findClosestPrefixPower_five : findClosestPrefixPower 5 = 0 := by
  rw [findClosestPrefixPower, if_pos (by norm_num : (5 : ℚ) ≠ 0)]
  rw [show |(5 : ℚ)| = 5 from abs_of_pos (by norm_num)]
  rw [floorLog10_five]
  decide

lemma roundNumber_five_range :
    roundNumber 5 [3 / 2, 3, 7] [1, 2, 5] false = .ok 5 := by
  simp only [roundNumber, floorLog10_five]
  norm_num [bisect_right, List.getD]

lemma roundNumber_five_spacing :
    roundNumber 5 [1, 2, 5] [1, 2, 5] true = .ok 5 := by
  simp only [roundNumber, floorLog10_five]
  norm_num [bisect_left, List.getD]

lemma tickList_0_5_2 : tickList 0 5 2 = [0, 5] := by
  rw [tickList, show ((2 : ℤ).toNat) = 2 from rfl,
    show List.range 2 = [0, 1] from rfl]
  simp only [List.map]
  norm_num

lemma genTicks_0_5_2 : genTicks 0 5 2 = .ok [0, 5] := by
  have hspacing : (5 : ℚ) / (((2 : ℤ) : ℚ) - 1) = 5 := by norm_num
  have hfl : (⌊(0 : ℚ) / 5⌋ : ℤ) = 0 := by norm_num
  have hce : (⌈(5 : ℚ) / 5⌉ : ℤ) = 1 := by
    rw [Int.ceil_eq_iff] <;> norm_num
  simp only [genTicks]
  rw [if_neg (by norm_num : ¬(5 : ℚ) = 0),
    if_neg (by norm_num : ¬(2 : ℤ) = 1),
    if_neg (by norm_num : ¬(2 : ℤ) ≤ 0)]
  rw [show (5 : ℚ) - 0 = 5 by norm_num]
  rw [roundNumber_five_range]
  simp only [hspacing]
  rw [roundNumber_five_spacing]
  simp only [hfl, hce]
  rw [show ((0 : ℤ) : ℚ) * 5 = 0 by norm_num,
    show ((1 : ℤ) : ℚ) * 5 = 5 by norm_num]
  rw [show (⌈((5 : ℚ) - 0) / 5⌉ : ℤ) = 1 by
    rw [Int.ceil_eq_iff] <;> norm_num]
  rw [if_neg (by norm_num : ¬(2 : ℤ) < 1 + 1),
    show (1 : ℤ) + 1 = 2 from rfl, tickList_0_5_2]

lemma getMinStepSize_05 : getMinStepSize [0, 5] = .ok 5 := by
  have hz : ([0, 5] : List ℚ).zip ([0, 5] : List ℚ).tail = [(0, 5)] := rfl
  simp only [getMinStepSize, hz, pyMinBy, List.foldl]
  norm_num [floorLog10_five]

lemma adjustors_05 : getAxisLabelAdjustors [0, 5] = .ok (0, 0) := by
  have hlast : ([0, 5] : List ℚ).getLast? = some (5 : ℚ) := rfl
  have hlen : ([0, 5] : List ℚ).length = 2 := rfl
  simp only [getAxisLabelAdjustors, hlast, hlen, getMinStepSize_05,
    findClosestPrefixPower_five, floorLog10_five]
  norm_num

lemma makeTickLabels_05 :
    makeTickLabels [0, 5] 0 0 = ["0.00", "5.00"] := by
  have e0 : ((0 : ℚ) - 0) / (10 : ℚ) ^ (0 : ℤ) = 0 := by norm_num
  have e5 : ((5 : ℚ) - 0) / (10 : ℚ) ^ (0 : ℤ) = 5 := by norm_num
  simp only [makeTickLabels, List.map, getMetricPrefix_zero, e0, e5,
    formatTwoDecimals_0, formatTwoDecimals_5]
  decide

/-- The `Ticks` produced by `Ticks(min_data=0, max_data=5, max_ticks=2)`. -/
def ticksData_0_5_2 : TicksData :=
  ⟨0, 5, 2, [0, 5], 0, 0, 0, ["0.00", "5.00"], none⟩

lemma mkTicks_0_5_2 : mkTicks 0 5 2 none none = .ok ticksData_0_5_2 := by
  have hlast : ([0, 5] : List ℚ).getLast? = some (5 : ℚ) := rfl
  simp only [mkTicks]
  rw [if_neg (by norm_num : ¬(5 : ℚ) < 0),
    if_neg (by norm_num : ¬(2 : ℤ) < 1)]
  simp only [Option.getD_none, List.isEmpty_nil, if_true, genTicks_0_5_2,
    hlast, adjustors_05, findClosestPrefixPower_five, makeTickLabels_05]
  norm_num [ticksData_0_5_2]

/-- Constructing
`YAxis(min_data=0, max_data=5, min_tick_margin=2, length=5, width=10,
position="left")` with any character overrides: the object, and the trace
of the three debug `print` calls in `YAxis.__init__`. -/
lemma mkYAxis_0_5_left (chars : List (String × String)) :
    mkYAxis 0 5 2 5 10 .left none none chars true =
      .ok (⟨ticksData_0_5_2, .left, 10, 5, true, chars, 2, 3, 0, 0, [0, 4],
          [("ytick_label", 9), ("ytick", 1)]⟩,
        [.int 3, .int 5, .pair 0 0]) := by
  simp only [mkYAxis]
  rw [if_neg (by decide : ¬((2 : ℤ) < 0 ∨ (10 : ℤ) < 0 ∨ (5 : ℤ) < 0))]
  rw [show 1 + ((5 : ℤ) - 1).fdiv (1 + 2) = 2 by decide]
  rw [mkTicks_0_5_2]
  rfl

/-- Claim C8: the character-override key `"left_ytick"` (documented in
the code's own docstring and the spec) is ignored by `YAxis.yline`: the
code looks up `"left_tick"` instead, so with
`characters = {"left_ytick": "X"}` the rendered tick rows still use the
default `"┫"` rather than `"X"`. -/
theorem yline_left_ytick_key_ignored :
    ∃ y trace,
      mkYAxis 0 5 2 5 10 .left none none [("left_ytick", "X")] true =
        .ok (y, trace) ∧
      y.characters = [("left_ytick", "X")] ∧ y.show_ticks = true ∧
      y.position = .left ∧
      (yline y).1 = [⟨"┫", "ytick"⟩, ⟨"┃", "yaxis"⟩, ⟨"┃", "yaxis"⟩,
        ⟨"┃", "yaxis"⟩, ⟨"┫", "ytick"⟩] := by
  refine ⟨_, _, mkYAxis_0_5_left [("left_ytick", "X")], rfl, rfl, rfl, ?_⟩
  decide

/-- Claim C9: constructing a vertical axis and rendering its tick column
is *not* free of observable effects: both `YAxis.__init__` and
`YAxis.yline` execute debug `print` calls, so their effect traces are
non-empty. -/
theorem yaxis_debug_prints :
    ∃ y trace, mkYAxis 0 5 2 5 10 .left none none [] true = .ok (y, trace) ∧
      trace ≠ [] ∧ (yline y).2 ≠ [] := by
  refine ⟨_, _, mkYAxis_0_5_left [], ?_, ?_⟩ <;> decide

end Charter
